import Mathlib

/-!
Verification of the foodgram backend's core behaviour: the shopping-list
aggregation (`RecipeViewSet.download_shopping_cart`), the recipe mutation
service (`RecipeWriteSerializer.validate/create/update`) and the
favorite/shopping-cart/follow relationship endpoints, embedded shallowly
from `backend/api/views.py`, `backend/api/serializers.py` and
`backend/recipes/models.py`.
-/

set_option maxHeartbeats 1000000

/-- Row of the `Ingredient` table (`recipes/models.py`): primary key plus
`name` and `measurement_unit`; the pair (name, measurement_unit) carries a
unique constraint. -/
structure Ingredient where
  id : Nat
  name : String
  measurement_unit : String
deriving DecidableEq, Repr

/-- Row of the `Recipe` table (`recipes/models.py`): scalar fields and the
owning author id.  `image` is nullable at the storage layer. -/
structure Recipe where
  id : Nat
  author : Nat
  name : String
  text : String
  cooking_time : Nat
  image : Option String
deriving DecidableEq, Repr

/-- Row of the `RecipeIngredient` join table: (recipe, ingredient, amount),
unique per (recipe, ingredient). -/
structure RecipeIngredient where
  recipe : Nat
  ingredient : Nat
  amount : Nat
deriving DecidableEq, Repr

/-- Row of the `Favorite` join table: (user, recipe), unique per pair. -/
structure FavoriteRow where
  user : Nat
  recipe : Nat
deriving DecidableEq, Repr

/-- Row of the `ShoppingCart` join table: (user, recipe), unique per pair. -/
structure ShoppingCartRow where
  user : Nat
  recipe : Nat
deriving DecidableEq, Repr

/-- Row of the `Follow` join table: follower `user` and followed `author`,
unique per ordered pair, with the check constraint `can_not_follow_yourself`. -/
structure FollowRow where
  user : Nat
  author : Nat
deriving DecidableEq, Repr

/-- The relational store: one list of rows per table of `recipes/models.py`
(users and tags are reduced to their ids; `recipe_tags` is the implicit
recipe-tag many-to-many table). -/
structure DB where
  users : List Nat
  tags : List Nat
  ingredients : List Ingredient
  recipes : List Recipe
  recipe_tags : List (Nat × Nat)
  recipe_ingredients : List RecipeIngredient
  favorites : List FavoriteRow
  shopping_cart : List ShoppingCartRow
  follows : List FollowRow
deriving DecidableEq, Repr

/-- Storage-layer integrity: the unique constraints declared in
`recipes/models.py` (`unique_name_measurement_unit`, primary keys,
`unique_recipe_ingredient`, `unique_shoppingcart`, `unique_favorite`,
`unique_follow`, `can_not_follow_yourself`) together with the foreign keys. -/
def DB.wf (db : DB) : Prop :=
  (db.ingredients.map (·.id)).Nodup ∧
  (db.ingredients.map (fun i => (i.name, i.measurement_unit))).Nodup ∧
  (db.recipes.map (·.id)).Nodup ∧
  (db.recipe_ingredients.map (fun ri => (ri.recipe, ri.ingredient))).Nodup ∧
  (db.shopping_cart.map (fun sc => (sc.user, sc.recipe))).Nodup ∧
  (db.favorites.map (fun f => (f.user, f.recipe))).Nodup ∧
  (db.follows.map (fun f => (f.author, f.user))).Nodup ∧
  (∀ ri ∈ db.recipe_ingredients, ri.ingredient ∈ db.ingredients.map (·.id)) ∧
  (∀ ri ∈ db.recipe_ingredients, ri.recipe ∈ db.recipes.map (·.id)) ∧
  (∀ sc ∈ db.shopping_cart, sc.recipe ∈ db.recipes.map (·.id)) ∧
  (∀ f ∈ db.favorites, f.recipe ∈ db.recipes.map (·.id)) ∧
  (∀ f ∈ db.follows, f.user ∈ db.users ∧ f.author ∈ db.users) ∧
  (∀ f ∈ db.follows, f.user ≠ f.author)

instance (db : DB) : Decidable db.wf := by
  unfold DB.wf; infer_instance

/-! ## Aggregation Engine (`RecipeViewSet.download_shopping_cart`)

The Django query
`RecipeIngredient.objects.filter(recipe__shopping_cart__user=u)
  .order_by('ingredient__name')
  .values('ingredient__name', 'ingredient__measurement_unit')
  .annotate(amount=Sum('amount'))`
is a grouped sum over the join ShoppingCart ⋈ RecipeIngredient ⋈ Ingredient,
grouped by (name, measurement_unit) and ordered by name ascending. -/

/-- RecipeIngredient rows reached through the user's shopping-cart join
(`filter(recipe__shopping_cart__user=u)`). -/
def cartItems (db : DB) (u : Nat) : List RecipeIngredient :=
  (db.shopping_cart.filter (fun sc => sc.user == u)).flatMap
    (fun sc => db.recipe_ingredients.filter (fun ri => ri.recipe == sc.recipe))

/-- Ingredient rows joined by primary key (`ingredient__...` traversal). -/
def ingredientRows (db : DB) (iid : Nat) : List Ingredient :=
  db.ingredients.filter (fun i => i.id == iid)

/-- The raw join rows (name, measurement_unit, amount) before grouping. -/
def cartJoin (db : DB) (u : Nat) : List (String × String × Nat) :=
  (cartItems db u).flatMap
    (fun ri => (ingredientRows db ri.ingredient).map
      (fun i => (i.name, i.measurement_unit, ri.amount)))

/-- Distinct grouping keys `(ingredient__name, ingredient__measurement_unit)`. -/
def groupKeys (rows : List (String × String × Nat)) : List (String × String) :=
  (rows.map (fun r => (r.1, r.2.1))).dedup

/-- The grouped `Sum('amount')` for one key. -/
def sumFor (rows : List (String × String × Nat)) (k : String × String) : Nat :=
  ((rows.filter (fun r => (r.1, r.2.1) == k)).map (fun r => r.2.2)).sum

/-- Code-point lexicographic comparison of character lists; this is the
embedding's ORDER BY collation (it agrees with the library order on
strings, see `nameLe_iff_le`). -/
def charListLe : List Char → List Char → Bool
  | [], _ => true
  | _ :: _, [] => false
  | a :: as, b :: bs =>
    if a < b then true
    else if b < a then false
    else charListLe as bs

/-- Lexicographic comparison of ingredient names. -/
def nameLe (a b : String) : Bool := charListLe a.data b.data

deriving instance DecidableEq for Except

/-- The annotated queryset of `download_shopping_cart`: one
(name, measurement_unit, total) row per distinct key, ordered by
ingredient name ascending. -/
def download_shopping_cart_rows (db : DB) (u : Nat) : List (String × String × Nat) :=
  (List.insertionSort (fun a b => nameLe a.1 b.1 = true) (groupKeys (cartJoin db u))).map
    (fun k => (k.1, k.2, sumFor (cartJoin db u) k))

/-- The literal header line the view starts `shopping_list` with. -/
def shoppingListHeader : String := "Список покупок:\n"

/-- One exported line, from the f-string
`"{name} ({unit}) - {amount}\n"` in the view. -/
def ingredientLine (t : String × String × Nat) : String :=
  t.1 ++ " (" ++ t.2.1 ++ ") - " ++ toString t.2.2 ++ "\n"

/-- The full exported plain-text report built by `download_shopping_cart`. -/
def download_shopping_cart_text (db : DB) (u : Nat) : String :=
  (download_shopping_cart_rows db u).foldl (fun acc t => acc ++ ingredientLine t)
    shoppingListHeader

/-- Concatenation of the per-ingredient lines of the report, in order. -/
def linesConcat (ts : List (String × String × Nat)) : String :=
  ts.foldr (fun t acc => ingredientLine t ++ acc) ""

/-- Spec-side predicate: ingredient `iid` occurs in some recipe currently in
user `u`'s shopping cart. -/
def ingredientInCart (db : DB) (u iid : Nat) : Prop :=
  ∃ sc ∈ db.shopping_cart, sc.user = u ∧
    ∃ ri ∈ db.recipe_ingredients, ri.recipe = sc.recipe ∧ ri.ingredient = iid

instance (db : DB) (u iid : Nat) : Decidable (ingredientInCart db u iid) := by
  unfold ingredientInCart; infer_instance

/-- Spec-side total: the sum of the per-recipe RecipeIngredient amounts of
ingredient `iid` across all recipes in user `u`'s cart. -/
def totalAmount (db : DB) (u iid : Nat) : Nat :=
  (((cartItems db u).filter (fun ri => ri.ingredient == iid)).map (fun ri => ri.amount)).sum

/-! ## Mutation Service (`RecipeWriteSerializer` in `api/serializers.py`) -/

/-- Modelled from the spec: `recipes/constans.py` is imported by the sources
but absent from them.  The spec bounds per-ingredient amount to
[1, MAX_VALUE] ("amount bounded to [1, MAX_VALUE]"), forcing MIN_VALUE = 1;
the spec does not give MAX_VALUE's concrete value, so we fix one. -/
def MIN_VALUE : Nat := 1

/-- Modelled from the spec: the upper bound of the [1, MAX_VALUE] range for
amount and cooking_time; its concrete value is not given by the spec. -/
def MAX_VALUE : Nat := 32000

/-- One element of the `ingredients` write payload
(`RecipeIngredientCreateSerializer`): an ingredient id and an amount. -/
structure IngredientEntry where
  id : Nat
  amount : Nat
deriving DecidableEq, Repr

/-- The write payload of `RecipeWriteSerializer`. -/
structure RecipeInput where
  name : String
  text : String
  cooking_time : Nat
  image : Option String
  tags : List Nat
  ingredients : List IngredientEntry
deriving DecidableEq, Repr

/-- The distinct rejection conditions raised by the write serializer; each
carries the field it is scoped to (see `FieldError.field`). -/
inductive FieldError where
  | tagDoesNotExist (id : Nat)
  | amountOutOfRange (amount : Nat)
  | cookingTimeOutOfRange (t : Nat)
  | imageRequired
  | ingredientsRequired
  | ingredientsNotUnique
  | tagsRequired
  | tagsNotUnique
  | ingredientNotFound (id : Nat)
deriving DecidableEq, Repr

/-- The request field each error is scoped to in the serializer's error
dicts. -/
def FieldError.field : FieldError → String
  | .tagDoesNotExist _ => "tags"
  | .amountOutOfRange _ => "ingredients"
  | .cookingTimeOutOfRange _ => "cooking_time"
  | .imageRequired => "image"
  | .ingredientsRequired => "ingredients"
  | .ingredientsNotUnique => "ingredients"
  | .tagsRequired => "tags"
  | .tagsNotUnique => "tags"
  | .ingredientNotFound _ => "ingredients"

namespace RecipeWriteSerializer

/-- Declared-field validation run by the framework before `validate`:
`tags` is a PrimaryKeyRelatedField over existing tags, each entry's
`amount` and the `cooking_time` are IntegerFields bounded to
[MIN_VALUE, MAX_VALUE], and `image` is a required Base64ImageField
(also re-checked by `validate_image`). -/
def fieldValidate (db : DB) (inp : RecipeInput) : Except FieldError Unit :=
  match inp.tags.find? (fun t => !(db.tags.contains t)) with
  | some t => .error (.tagDoesNotExist t)
  | none =>
    match inp.ingredients.find? (fun e => e.amount < MIN_VALUE || MAX_VALUE < e.amount) with
    | some e => .error (.amountOutOfRange e.amount)
    | none =>
      if inp.cooking_time < MIN_VALUE || MAX_VALUE < inp.cooking_time then
        .error (.cookingTimeOutOfRange inp.cooking_time)
      else if inp.image = none then .error .imageRequired
      else .ok ()

/-- Object-level `RecipeWriteSerializer.validate`: ingredients must be
non-empty and duplicate-free (by id), tags must be non-empty and
duplicate-free, in exactly that order of checks. -/
def validate (inp : RecipeInput) : Except FieldError Unit :=
  if inp.ingredients = [] then .error .ingredientsRequired
  else if (inp.ingredients.map (·.id)).dedup.length ≠ inp.ingredients.length then
    .error .ingredientsNotUnique
  else if inp.tags = [] then .error .tagsRequired
  else if inp.tags.dedup.length ≠ inp.tags.length then .error .tagsNotUnique
  else .ok ()

/-- `get_ingredient_or_raise_400`: resolve an ingredient id or raise a
ValidationError naming the offending id. -/
def get_ingredient_or_raise_400 (db : DB) (iid : Nat) : Except FieldError Ingredient :=
  match db.ingredients.find? (fun i => i.id == iid) with
  | some i => .ok i
  | none => .error (.ingredientNotFound iid)

/-- `process_ingredients_data`: resolve every entry in request order,
building the RecipeIngredient rows for `bulk_create`; the first unresolved
id aborts the whole batch. -/
def process_ingredients_data (db : DB) (rid : Nat) :
    List IngredientEntry → Except FieldError (List RecipeIngredient)
  | [] => .ok []
  | e :: rest =>
    match get_ingredient_or_raise_400 db e.id with
    | .error err => .error err
    | .ok i =>
      match process_ingredients_data db rid rest with
      | .error err => .error err
      | .ok tl => .ok (⟨rid, i.id, e.amount⟩ :: tl)

/-- The autoincrement primary key the storage layer assigns to a new
recipe: strictly larger than every existing recipe id. -/
def freshRecipeId (db : DB) : Nat :=
  (db.recipes.map (·.id)).foldr max 0 + 1

/-- `RecipeWriteSerializer.create` as reached through the endpoint: field
validation, then `validate`, then — inside `transaction.atomic()` — create
the Recipe row, set its tags, and bulk-insert its RecipeIngredient rows.
An error inside the transaction rolls everything back, so an `.error`
result carries no state change. -/
def create (db : DB) (author : Nat) (inp : RecipeInput) :
    Except FieldError (DB × Nat) :=
  match fieldValidate db inp with
  | .error e => .error e
  | .ok _ =>
    match validate inp with
    | .error e => .error e
    | .ok _ =>
      match process_ingredients_data db (freshRecipeId db) inp.ingredients with
      | .error e => .error e
      | .ok ris =>
        .ok ({ db with
                recipes := db.recipes ++ [⟨freshRecipeId db, author, inp.name,
                                           inp.text, inp.cooking_time, inp.image⟩],
                recipe_tags :=
                  db.recipe_tags ++ inp.tags.map (fun t => (freshRecipeId db, t)),
                recipe_ingredients := db.recipe_ingredients ++ ris },
              freshRecipeId db)

/-- `RecipeWriteSerializer.update` as reached through the endpoint: field
validation, `validate`, then — inside `transaction.atomic()` — delete the
recipe's RecipeIngredient rows, set its tags, bulk-insert the new rows;
on success the scalar fields are then saved by `super().update`.  An error
inside the transaction rolls back, so an `.error` result carries no state
change. -/
def update (db : DB) (rid : Nat) (inp : RecipeInput) : Except FieldError DB :=
  match fieldValidate db inp with
  | .error e => .error e
  | .ok _ =>
    match validate inp with
    | .error e => .error e
    | .ok _ =>
      match process_ingredients_data db rid inp.ingredients with
      | .error e => .error e
      | .ok ris =>
        .ok { db with
          recipe_ingredients :=
            (db.recipe_ingredients.filter (fun ri => !(ri.recipe == rid))) ++ ris,
          recipe_tags :=
            (db.recipe_tags.filter (fun rt => !(rt.1 == rid))) ++
              inp.tags.map (fun t => (rid, t)),
          recipes := db.recipes.map (fun r =>
            if r.id = rid then
              { r with name := inp.name, text := inp.text,
                       cooking_time := inp.cooking_time, image := inp.image }
            else r) }

end RecipeWriteSerializer

/-- The database state after a create request: the new state on success,
the old state on any rejection (the transaction rolled back or was never
entered). -/
def createResultDB (db : DB) (author : Nat) (inp : RecipeInput) : DB :=
  match RecipeWriteSerializer.create db author inp with
  | .ok (db', _) => db'
  | .error _ => db

/-- The database state after an update request: new state on success, old
state on rejection. -/
def updateResultDB (db : DB) (rid : Nat) (inp : RecipeInput) : DB :=
  match RecipeWriteSerializer.update db rid inp with
  | .ok db' => db'
  | .error _ => db

/-! ## Relationship Guard (`RecipeViewSet` favorite/shopping-cart actions and
`CustomUserViewSet` subscribe actions in `api/views.py`) -/

/-- Caller-visible failures of the relationship endpoints:
`validation msg` is a DRF ValidationError (HTTP 400) with its message,
`notFound` is the Http404 raised by `get_object_or_404`. -/
inductive ApiError where
  | validation (msg : String)
  | notFound
deriving DecidableEq, Repr

/-- `RecipeViewSet.favorite` (POST): a missing recipe raises a
ValidationError (not a 404); a pre-existing (user, recipe) row raises the
duplicate ValidationError; otherwise the Favorite row is inserted. -/
def favorite (db : DB) (u rid : Nat) : Except ApiError DB :=
  match db.recipes.find? (fun r => r.id == rid) with
  | none => .error (.validation "Рецепт не найден в избранном!")
  | some r =>
    if db.favorites.any (fun f => f.user == u && f.recipe == r.id) then
      .error (.validation "Рецепт уже добавлен в избранное!")
    else
      .ok { db with favorites := db.favorites ++ [⟨u, r.id⟩] }

/-- `RecipeViewSet.delete_favorite` (DELETE): a missing recipe raises
Http404 via `get_object_or_404`; a missing Favorite row raises a
ValidationError; otherwise the single fetched Favorite row is deleted. -/
def delete_favorite (db : DB) (u rid : Nat) : Except ApiError DB :=
  match db.recipes.find? (fun r => r.id == rid) with
  | none => .error .notFound
  | some r =>
    if !(db.favorites.any (fun f => f.user == u && f.recipe == r.id)) then
      .error (.validation "Рецепта нет в избранном!")
    else
      .ok { db with
            favorites := db.favorites.eraseP (fun f => f.user == u && f.recipe == r.id) }

/-- `RecipeViewSet.shopping_cart` (POST): same shape as `favorite` with the
cart messages. -/
def shopping_cart (db : DB) (u rid : Nat) : Except ApiError DB :=
  match db.recipes.find? (fun r => r.id == rid) with
  | none => .error (.validation "Рецепт не найден в списоке покупок!")
  | some r =>
    if db.shopping_cart.any (fun sc => sc.user == u && sc.recipe == r.id) then
      .error (.validation "Рецепт уже добавлен в списоке покупок!")
    else
      .ok { db with shopping_cart := db.shopping_cart ++ [⟨u, r.id⟩] }

/-- `RecipeViewSet.delete_shopping_cart` (DELETE): same shape as
`delete_favorite` with the cart messages. -/
def delete_shopping_cart (db : DB) (u rid : Nat) : Except ApiError DB :=
  match db.recipes.find? (fun r => r.id == rid) with
  | none => .error .notFound
  | some r =>
    if !(db.shopping_cart.any (fun sc => sc.user == u && sc.recipe == r.id)) then
      .error (.validation "Рецепта нет в списке покупок!")
    else
      .ok { db with
            shopping_cart :=
              db.shopping_cart.eraseP (fun sc => sc.user == u && sc.recipe == r.id) }

/-- Storage-layer insert into the Follow table: the database itself
enforces the `can_not_follow_yourself` check constraint and the
`unique_follow` unique constraint of `recipes/models.py`; a violating
insert is refused (IntegrityError) and leaves the table unchanged. -/
def followStorageInsert (db : DB) (u aid : Nat) : Option DB :=
  if u = aid then none
  else if db.follows.any (fun f => f.user == u && f.author == aid) then none
  else some { db with follows := db.follows ++ [⟨u, aid⟩] }

/-- `CustomUserViewSet.subscribe` (POST): the author is fetched with
`get_object_or_404`; an existing Follow row raises the duplicate
ValidationError; then `SubscriptionSerializer.validate` raises the
self-follow ValidationError when author == user; otherwise
`Follow.objects.create` inserts the row. -/
def subscribe (db : DB) (u aid : Nat) : Except ApiError DB :=
  if !(db.users.contains aid) then .error .notFound
  else if db.follows.any (fun f => f.user == u && f.author == aid) then
    .error (.validation "Вы уже подписаны на этого автора")
  else if aid = u then
    .error (.validation "Вы не можете подписаться на самого себя!")
  else
    .ok { db with follows := db.follows ++ [⟨u, aid⟩] }

/-- `CustomUserViewSet.delete_subscribe` (DELETE): the author is fetched
with `get_object_or_404`; a missing Follow row raises a ValidationError;
otherwise the single fetched Follow row is deleted. -/
def delete_subscribe (db : DB) (u aid : Nat) : Except ApiError DB :=
  if !(db.users.contains aid) then .error .notFound
  else if !(db.follows.any (fun f => f.user == u && f.author == aid)) then
    .error (.validation "Подписка не найдена")
  else
    .ok { db with
          follows := db.follows.eraseP (fun f => f.user == u && f.author == aid) }

/-- The state after a relationship request: the new state on success, the
old state on any error response. -/
def apiResultDB (db : DB) (r : Except ApiError DB) : DB :=
  match r with
  | .ok db' => db'
  | .error _ => db

/-! ## Follow listing (`SubscriptionReadSerializer.get_recipes`) -/

/-- Decimal digit accumulator for `pyInt`. -/
def pyIntDigits : List Char → Nat → Option Nat
  | [], acc => some acc
  | c :: cs, acc =>
    if c.isDigit then pyIntDigits cs (acc * 10 + (c.toNat - '0'.toNat)) else none

/-- Python's `int(s)` on the strings relevant here: an optional minus sign
followed by one or more decimal digits; anything else raises ValueError
(modelled as `none`). -/
def pyInt (s : String) : Option Int :=
  match s.data with
  | [] => none
  | '-' :: [] => none
  | '-' :: c :: cs => (pyIntDigits (c :: cs) 0).map (fun n => -(n : Int))
  | c :: cs => (pyIntDigits (c :: cs) 0).map (fun n => (n : Int))

/-- `SubscriptionReadSerializer.get_recipes`: the author's recipes,
truncated by the raw `recipes_limit` query parameter.  Python semantics:
an absent parameter or an empty string is falsy and leaves the queryset
whole; otherwise `recipes[:int(limit)]` runs, where a non-numeric string
raises ValueError and a negative slice bound raises the queryset error
"Negative indexing is not supported.".  Raised errors are modelled as
`.error`. -/
def get_recipes (db : DB) (aid : Nat) (recipes_limit : Option String) :
    Except String (List Recipe) :=
  let recipes := db.recipes.filter (fun r => r.author == aid)
  match recipes_limit with
  | none => .ok recipes
  | some s =>
    if s = "" then .ok recipes
    else
      match pyInt s with
      | none => .error "ValueError"
      | some n =>
        if n < 0 then .error "Negative indexing is not supported."
        else .ok (recipes.take n.toNat)

/-! ## Reachability for the storage invariant -/

/-- No Follow row is a self-follow. -/
def NoSelfFollow (db : DB) : Prop := ∀ f ∈ db.follows, f.user ≠ f.author

instance (db : DB) : Decidable (NoSelfFollow db) := by
  unfold NoSelfFollow; infer_instance

/-- One successful mutating request of the API surface. -/
inductive Step : DB → DB → Prop where
  | createRecipe {db db' : DB} {author rid : Nat} {inp : RecipeInput}
      (h : RecipeWriteSerializer.create db author inp = .ok (db', rid)) : Step db db'
  | updateRecipe {db db' : DB} {rid : Nat} {inp : RecipeInput}
      (h : RecipeWriteSerializer.update db rid inp = .ok db') : Step db db'
  | favoriteAdd {db db' : DB} {u rid : Nat}
      (h : favorite db u rid = .ok db') : Step db db'
  | favoriteDel {db db' : DB} {u rid : Nat}
      (h : delete_favorite db u rid = .ok db') : Step db db'
  | cartAdd {db db' : DB} {u rid : Nat}
      (h : shopping_cart db u rid = .ok db') : Step db db'
  | cartDel {db db' : DB} {u rid : Nat}
      (h : delete_shopping_cart db u rid = .ok db') : Step db db'
  | followAdd {db db' : DB} {u aid : Nat}
      (h : subscribe db u aid = .ok db') : Step db db'
  | followDel {db db' : DB} {u aid : Nat}
      (h : delete_subscribe db u aid = .ok db') : Step db db'

/-- Concrete store realising the spec's concrete scenario: user 1's cart
holds Recipe 1 (Flour/g, 200) and Recipe 2 (Flour/g, 100; Sugar/g, 50);
user 1 also has Recipe 1 as favorite and follows user 2; user 2's cart is
empty. -/
def dbSample : DB :=
  { users := [1, 2], tags := [10],
    ingredients := [⟨1, "Flour", "g"⟩, ⟨2, "Sugar", "g"⟩],
    recipes := [⟨1, 1, "Recipe1", "text1", 5, some "img1"⟩,
                ⟨2, 1, "Recipe2", "text2", 7, some "img2"⟩],
    recipe_tags := [(1, 10), (2, 10)],
    recipe_ingredients := [⟨1, 1, 200⟩, ⟨2, 1, 100⟩, ⟨2, 2, 50⟩],
    favorites := [⟨1, 1⟩],
    shopping_cart := [⟨1, 1⟩, ⟨1, 2⟩],
    follows := [⟨1, 2⟩] }

/-! ## Generic list lemmas -/

theorem mem_le_foldr_max (l : List Nat) (a : Nat) (h : a ∈ l) : a ≤ l.foldr max 0 := by
  induction l with
  | nil => cases h
  | cons b t ih =>
    rcases List.mem_cons.mp h with rfl | h'
    · exact le_max_left _ _
    · exact le_trans (ih h') (le_max_right _ _)

theorem dedup_length_eq_iff {α} [DecidableEq α] (l : List α) :
    l.dedup.length = l.length ↔ l.Nodup := by
  constructor
  · intro h
    have hs : l.dedup.Sublist l := List.dedup_sublist l
    have he : l.dedup = l := hs.eq_of_length h
    rw [← he]; exact List.nodup_dedup l
  · intro h; rw [List.dedup_eq_self.mpr h]

theorem find?_eq_some_of_mem {α} (p : α → Bool) (l : List α) (h : ∃ x ∈ l, p x) :
    ∃ a, l.find? p = some a ∧ a ∈ l ∧ p a := by
  have h2 : (l.find? p).isSome := by rw [List.find?_isSome]; exact h
  cases hf : l.find? p with
  | none => rw [hf] at h2; simp at h2
  | some a => exact ⟨a, rfl, List.mem_of_find?_eq_some hf, List.find?_some hf⟩

theorem filter_key_eq_nil {α β} [DecidableEq β] (f : α → β) (l : List α) (k : β)
    (h : k ∉ l.map f) : l.filter (fun x => f x == k) = [] := by
  rw [List.filter_eq_nil_iff]
  intro x hx
  simp only [beq_iff_eq]
  intro he
  exact h (he ▸ List.mem_map_of_mem f hx)

theorem filter_key_singleton {α β} [DecidableEq β] (f : α → β) (l : List α)
    (hn : (l.map f).Nodup) (a : α) (ha : a ∈ l) :
    l.filter (fun x => f x == f a) = [a] := by
  induction l with
  | nil => cases ha
  | cons b t ih =>
    rw [List.map_cons, List.nodup_cons] at hn
    obtain ⟨hb, ht⟩ := hn
    rcases List.mem_cons.mp ha with rfl | ha'
    · have ht0 : t.filter (fun x => f x == f a) = [] := filter_key_eq_nil f t (f a) hb
      simp [List.filter_cons, ht0]
    · have hfb : (f b == f a) = false := by
        simp only [beq_eq_false_iff_ne, ne_eq]
        intro he
        exact hb (he ▸ List.mem_map_of_mem f ha')
      rw [List.filter_cons, hfb]
      simp only [Bool.false_eq_true, if_neg, not_false_iff]
      exact ih ht ha'

theorem eraseP_key {α κ} (p : α → Bool) (key : α → κ) (k : κ) (l : List α)
    (hn : (l.map key).Nodup) (hp : ∀ x, p x = true ↔ key x = k)
    (a : α) (ha : a ∈ l) (hka : key a = k) :
    (l.eraseP p).length + 1 = l.length ∧ ∀ x ∈ l.eraseP p, key x ≠ k := by
  obtain ⟨b, l₁, l₂, hl₁, hpb, hl, he⟩ := List.exists_of_eraseP ha ((hp a).mpr hka)
  have hkb : key b = k := (hp b).mp hpb
  constructor
  · rw [he, hl]; simp [List.length_append]; omega
  · intro x hx
    rw [he] at hx
    rcases List.mem_append.mp hx with hx1 | hx2
    · intro hkx; exact (hl₁ x hx1) ((hp x).mpr hkx)
    · intro hkx
      rw [hl] at hn
      rw [List.map_append, List.map_cons] at hn
      have hsuf : (key b :: l₂.map key).Nodup := hn.of_append_right
      rw [List.nodup_cons] at hsuf
      exact hsuf.1 (hkb ▸ hkx ▸ List.mem_map_of_mem key hx2)

/-! ## Shape lemmas for the Mutation Service -/

theorem get_ingredient_ok_id {db : DB} {iid : Nat} {i : Ingredient}
    (h : RecipeWriteSerializer.get_ingredient_or_raise_400 db iid = .ok i) :
    i ∈ db.ingredients ∧ i.id = iid := by
  unfold RecipeWriteSerializer.get_ingredient_or_raise_400 at h
  cases hf : db.ingredients.find? (fun x => x.id == iid) with
  | none => rw [hf] at h; simp at h
  | some j =>
    rw [hf] at h
    simp only [Except.ok.injEq] at h
    subst h
    exact ⟨List.mem_of_find?_eq_some hf, by simpa using List.find?_some hf⟩

theorem get_ingredient_ok_of_mem {db : DB} {iid : Nat}
    (h : iid ∈ db.ingredients.map (·.id)) :
    ∃ i, RecipeWriteSerializer.get_ingredient_or_raise_400 db iid = .ok i := by
  obtain ⟨j, hj, hje⟩ := List.mem_map.mp h
  obtain ⟨a, hf, _, _⟩ := find?_eq_some_of_mem (fun x => x.id == iid) db.ingredients
    ⟨j, hj, by simpa using hje⟩
  exact ⟨a, by unfold RecipeWriteSerializer.get_ingredient_or_raise_400; rw [hf]⟩

theorem get_ingredient_error_of_not_mem {db : DB} {iid : Nat}
    (h : iid ∉ db.ingredients.map (·.id)) :
    RecipeWriteSerializer.get_ingredient_or_raise_400 db iid =
      .error (.ingredientNotFound iid) := by
  have hf : db.ingredients.find? (fun x => x.id == iid) = none := by
    rw [List.find?_eq_none]
    intro x hx
    simp only [beq_iff_eq]
    intro he
    exact h (he ▸ List.mem_map_of_mem _ hx)
  unfold RecipeWriteSerializer.get_ingredient_or_raise_400
  rw [hf]

theorem process_ok_shape {db : DB} {rid : Nat} {entries : List IngredientEntry}
    {ris : List RecipeIngredient}
    (h : RecipeWriteSerializer.process_ingredients_data db rid entries = .ok ris) :
    ris = entries.map (fun e => ⟨rid, e.id, e.amount⟩) := by
  induction entries generalizing ris with
  | nil =>
    simp only [RecipeWriteSerializer.process_ingredients_data, Except.ok.injEq] at h
    rw [← h]; rfl
  | cons e rest ih =>
    rw [RecipeWriteSerializer.process_ingredients_data] at h
    cases hg : RecipeWriteSerializer.get_ingredient_or_raise_400 db e.id with
    | error err => rw [hg] at h; simp at h
    | ok i =>
      rw [hg] at h
      cases hr : RecipeWriteSerializer.process_ingredients_data db rid rest with
      | error err => rw [hr] at h; simp at h
      | ok tl =>
        rw [hr] at h
        simp only [Except.ok.injEq] at h
        obtain ⟨_, hid⟩ := get_ingredient_ok_id hg
        rw [← h, ih hr, List.map_cons, hid]

theorem process_ok_of_resolvable {db : DB} {rid : Nat} {entries : List IngredientEntry}
    (h : ∀ e ∈ entries, e.id ∈ db.ingredients.map (·.id)) :
    RecipeWriteSerializer.process_ingredients_data db rid entries =
      .ok (entries.map (fun e => ⟨rid, e.id, e.amount⟩)) := by
  induction entries with
  | nil => rfl
  | cons e rest ih =>
    obtain ⟨i, hg⟩ := get_ingredient_ok_of_mem (h e (List.mem_cons_self e rest))
    obtain ⟨_, hid⟩ := get_ingredient_ok_id hg
    rw [RecipeWriteSerializer.process_ingredients_data, hg,
      ih (fun x hx => h x (List.mem_cons_of_mem e hx))]
    simp [hid]

theorem process_error_of_bad {db : DB} (rid : Nat) {entries : List IngredientEntry}
    (h : ∃ e ∈ entries, e.id ∉ db.ingredients.map (·.id)) :
    ∃ bad, bad ∈ entries.map (·.id) ∧ bad ∉ db.ingredients.map (·.id) ∧
      RecipeWriteSerializer.process_ingredients_data db rid entries =
        .error (.ingredientNotFound bad) := by
  induction entries with
  | nil => simp at h
  | cons e rest ih =>
    by_cases he : e.id ∈ db.ingredients.map (·.id)
    · have hrest : ∃ x ∈ rest, x.id ∉ db.ingredients.map (·.id) := by
        obtain ⟨x, hx, hbad⟩ := h
        rcases List.mem_cons.mp hx with rfl | hx'
        · exact absurd he hbad
        · exact ⟨x, hx', hbad⟩
      obtain ⟨bad, hbadmem, hbadnot, heq⟩ := ih hrest
      obtain ⟨i, hg⟩ := get_ingredient_ok_of_mem he
      refine ⟨bad, ?_, hbadnot, ?_⟩
      · rw [List.map_cons]; exact List.mem_cons_of_mem _ hbadmem
      · rw [RecipeWriteSerializer.process_ingredients_data, hg, heq]
    · refine ⟨e.id, by simp, he, ?_⟩
      rw [RecipeWriteSerializer.process_ingredients_data,
        get_ingredient_error_of_not_mem he]

theorem create_ok_shape {db db' : DB} {author rid : Nat} {inp : RecipeInput}
    (h : RecipeWriteSerializer.create db author inp = .ok (db', rid)) :
    rid = RecipeWriteSerializer.freshRecipeId db ∧
    db' = { db with
      recipes := db.recipes ++ [⟨RecipeWriteSerializer.freshRecipeId db, author,
                                 inp.name, inp.text, inp.cooking_time, inp.image⟩],
      recipe_tags := db.recipe_tags ++
        inp.tags.map (fun t => (RecipeWriteSerializer.freshRecipeId db, t)),
      recipe_ingredients := db.recipe_ingredients ++
        inp.ingredients.map
          (fun e => ⟨RecipeWriteSerializer.freshRecipeId db, e.id, e.amount⟩) } := by
  unfold RecipeWriteSerializer.create at h
  cases hf : RecipeWriteSerializer.fieldValidate db inp with
  | error e => rw [hf] at h; simp at h
  | ok u =>
    rw [hf] at h
    cases hv : RecipeWriteSerializer.validate inp with
    | error e => rw [hv] at h; simp at h
    | ok v =>
      rw [hv] at h
      cases hp : RecipeWriteSerializer.process_ingredients_data db
          (RecipeWriteSerializer.freshRecipeId db) inp.ingredients with
      | error e => rw [hp] at h; simp at h
      | ok ris =>
        rw [hp] at h
        simp only [Except.ok.injEq, Prod.mk.injEq] at h
        obtain ⟨h1, h2⟩ := h
        refine ⟨h2.symm, ?_⟩
        rw [← h1, process_ok_shape hp]

theorem update_ok_shape {db db' : DB} {rid : Nat} {inp : RecipeInput}
    (h : RecipeWriteSerializer.update db rid inp = .ok db') :
    db' = { db with
      recipe_ingredients :=
        (db.recipe_ingredients.filter (fun ri => !(ri.recipe == rid))) ++
          inp.ingredients.map (fun e => ⟨rid, e.id, e.amount⟩),
      recipe_tags :=
        (db.recipe_tags.filter (fun rt => !(rt.1 == rid))) ++
          inp.tags.map (fun t => (rid, t)),
      recipes := db.recipes.map (fun r =>
        if r.id = rid then
          { r with name := inp.name, text := inp.text,
                   cooking_time := inp.cooking_time, image := inp.image }
        else r) } := by
  unfold RecipeWriteSerializer.update at h
  cases hf : RecipeWriteSerializer.fieldValidate db inp with
  | error e => rw [hf] at h; simp at h
  | ok u =>
    rw [hf] at h
    cases hv : RecipeWriteSerializer.validate inp with
    | error e => rw [hv] at h; simp at h
    | ok v =>
      rw [hv] at h
      cases hp : RecipeWriteSerializer.process_ingredients_data db rid inp.ingredients with
      | error e => rw [hp] at h; simp at h
      | ok ris =>
        rw [hp] at h
        simp only [Except.ok.injEq] at h
        rw [← h, process_ok_shape hp]

/-! ## Aggregation lemmas -/

theorem charListLe_cons_iff (a b : Char) (as bs : List Char) :
    charListLe (a :: as) (b :: bs) = true ↔
      a < b ∨ (a = b ∧ charListLe as bs = true) := by
  by_cases h1 : a < b
  · simp [charListLe, h1]
  · by_cases h2 : b < a
    · have hne : a ≠ b := fun he => absurd (he ▸ h2) (lt_irrefl a)
      simp [charListLe, h1, h2, hne]
    · have heq : a = b := le_antisymm (not_lt.mp h2) (not_lt.mp h1)
      simp [charListLe, h1, h2, heq]

theorem charListLe_total : ∀ (as bs : List Char),
    charListLe as bs = true ∨ charListLe bs as = true := by
  intro as
  induction as with
  | nil => intro bs; exact Or.inl rfl
  | cons a as ih =>
    intro bs
    cases bs with
    | nil => exact Or.inr rfl
    | cons b bs =>
      rw [charListLe_cons_iff, charListLe_cons_iff]
      rcases lt_trichotomy a b with h | h | h
      · exact Or.inl (Or.inl h)
      · rcases ih bs with ht | ht
        · exact Or.inl (Or.inr ⟨h, ht⟩)
        · exact Or.inr (Or.inr ⟨h.symm, ht⟩)
      · exact Or.inr (Or.inl h)

theorem charListLe_trans : ∀ (as bs cs : List Char),
    charListLe as bs = true → charListLe bs cs = true → charListLe as cs = true := by
  intro as
  induction as with
  | nil => intro bs cs _ _; rfl
  | cons a as ih =>
    intro bs cs h1 h2
    cases bs with
    | nil => simp [charListLe] at h1
    | cons b bs =>
      cases cs with
      | nil => simp [charListLe] at h2
      | cons c cs =>
        rw [charListLe_cons_iff] at h1 h2 ⊢
        rcases h1 with hab | ⟨rfl, ht1⟩
        · rcases h2 with hbc | ⟨rfl, ht2⟩
          · exact Or.inl (lt_trans hab hbc)
          · exact Or.inl hab
        · rcases h2 with hbc | ⟨rfl, ht2⟩
          · exact Or.inl hbc
          · exact Or.inr ⟨rfl, ih bs cs ht1 ht2⟩

theorem charListLe_iff_not_lt : ∀ (as bs : List Char),
    charListLe as bs = true ↔ ¬ (bs < as) := by
  intro as
  induction as with
  | nil =>
    intro bs
    constructor
    · intro _ h; cases h
    · intro _; rfl
  | cons a as ih =>
    intro bs
    cases bs with
    | nil =>
      constructor
      · intro h; simp [charListLe] at h
      · intro h; exact absurd List.Lex.nil h
    | cons b bs =>
      rw [charListLe_cons_iff]
      constructor
      · rintro (hab | ⟨rfl, ht⟩) hlt
        · cases hlt with
          | cons h3 => exact absurd hab (lt_irrefl _)
          | rel hr => exact absurd hab (lt_asymm hr)
        · cases hlt with
          | cons h3 => exact absurd h3 ((ih bs).mp ht)
          | rel hr => exact absurd hr (lt_irrefl a)
      · intro h
        rcases lt_trichotomy a b with hab | rfl | hba
        · exact Or.inl hab
        · refine Or.inr ⟨rfl, (ih bs).mpr ?_⟩
          intro hlt
          exact h (List.Lex.cons hlt)
        · exact absurd (List.Lex.rel hba) h

theorem nameLe_iff_le (a b : String) : nameLe a b = true ↔ a ≤ b := by
  rw [String.le_iff_toList_le, ← not_lt]
  exact charListLe_iff_not_lt a.data b.data

theorem ingredientRows_eq_singleton {db : DB}
    (hids : (db.ingredients.map (·.id)).Nodup) {j : Ingredient}
    (hj : j ∈ db.ingredients) {iid : Nat} (hje : j.id = iid) :
    ingredientRows db iid = [j] := by
  unfold ingredientRows
  rw [← hje]
  exact filter_key_singleton (·.id) db.ingredients hids j hj

theorem sumFor_join (db : DB) (ris : List RecipeIngredient)
    (hids : (db.ingredients.map (·.id)).Nodup)
    (hkeys : (db.ingredients.map (fun i => (i.name, i.measurement_unit))).Nodup)
    (hFK : ∀ ri ∈ ris, ri.ingredient ∈ db.ingredients.map (·.id))
    (i : Ingredient) (hi : i ∈ db.ingredients) :
    sumFor (ris.flatMap (fun ri => (ingredientRows db ri.ingredient).map
        (fun j => (j.name, j.measurement_unit, ri.amount)))) (i.name, i.measurement_unit)
      = ((ris.filter (fun ri => ri.ingredient == i.id)).map (fun ri => ri.amount)).sum := by
  induction ris with
  | nil => rfl
  | cons ri rest ih =>
    have hFKr : ∀ x ∈ rest, x.ingredient ∈ db.ingredients.map (·.id) :=
      fun x hx => hFK x (List.mem_cons_of_mem _ hx)
    obtain ⟨j, hj, hje⟩ := List.mem_map.mp (hFK ri (List.mem_cons_self _ _))
    have hrows : ingredientRows db ri.ingredient = [j] :=
      ingredientRows_eq_singleton hids hj hje
    rw [List.flatMap_cons, hrows]
    unfold sumFor at ih ⊢
    rw [List.filter_append, List.map_append, List.sum_append, ih hFKr]
    by_cases hcase : ri.ingredient = i.id
    · have hj_eq : j = i :=
        List.inj_on_of_nodup_map hids hj hi (by rw [hje, hcase])
      subst hj_eq
      simp [List.filter_cons, hcase]
    · have hjne : j ≠ i := fun he => hcase (by rw [← hje, he])
      have hkey : ¬ ((j.name, j.measurement_unit) : String × String)
          = (i.name, i.measurement_unit) := by
        intro he
        exact hjne (List.inj_on_of_nodup_map hkeys hj hi he)
      simp [List.filter_cons, hcase, hkey]

theorem mem_join_keys (db : DB) (ris : List RecipeIngredient) (k : String × String) :
    (∃ row ∈ ris.flatMap (fun ri => (ingredientRows db ri.ingredient).map
        (fun j => (j.name, j.measurement_unit, ri.amount))), (row.1, row.2.1) = k)
    ↔ ∃ ri ∈ ris, ∃ j ∈ db.ingredients, j.id = ri.ingredient ∧
        k = (j.name, j.measurement_unit) := by
  unfold ingredientRows
  simp only [List.mem_flatMap, List.mem_map, List.mem_filter, beq_iff_eq]
  constructor
  · rintro ⟨row, ⟨ri, hri, j, ⟨hj, hje⟩, hrow⟩, hk⟩
    rw [← hrow] at hk
    exact ⟨ri, hri, j, hj, hje, hk.symm⟩
  · rintro ⟨ri, hri, j, hj, hje, hk⟩
    exact ⟨(j.name, j.measurement_unit, ri.amount),
      ⟨ri, hri, j, ⟨hj, hje⟩, rfl⟩, hk.symm⟩

theorem mem_cartItems (db : DB) (u : Nat) (ri : RecipeIngredient) :
    ri ∈ cartItems db u ↔ ∃ sc ∈ db.shopping_cart, sc.user = u ∧
      ri ∈ db.recipe_ingredients ∧ ri.recipe = sc.recipe := by
  unfold cartItems
  simp only [List.mem_flatMap, List.mem_filter, beq_iff_eq]
  constructor
  · rintro ⟨sc, ⟨hsc, hu⟩, hri, hrec⟩
    exact ⟨sc, hsc, hu, hri, hrec⟩
  · rintro ⟨sc, hsc, hu, hri, hrec⟩
    exact ⟨sc, ⟨hsc, hu⟩, hri, hrec⟩

theorem ingredientInCart_iff (db : DB) (u iid : Nat) :
    ingredientInCart db u iid ↔ ∃ ri ∈ cartItems db u, ri.ingredient = iid := by
  unfold ingredientInCart
  constructor
  · rintro ⟨sc, hsc, hu, ri, hri, hrec, hing⟩
    exact ⟨ri, (mem_cartItems db u ri).mpr ⟨sc, hsc, hu, hri, hrec⟩, hing⟩
  · rintro ⟨ri, hmem, hing⟩
    obtain ⟨sc, hsc, hu, hri, hrec⟩ := (mem_cartItems db u ri).mp hmem
    exact ⟨sc, hsc, hu, ri, hri, hrec, hing⟩

theorem cartItems_FK (db : DB) (u : Nat)
    (hFK : ∀ ri ∈ db.recipe_ingredients, ri.ingredient ∈ db.ingredients.map (·.id)) :
    ∀ ri ∈ cartItems db u, ri.ingredient ∈ db.ingredients.map (·.id) := by
  intro ri hri
  obtain ⟨_, _, _, hmem, _⟩ := (mem_cartItems db u ri).mp hri
  exact hFK ri hmem

theorem rows_keys (db : DB) (u : Nat) :
    (download_shopping_cart_rows db u).map (fun t => (t.1, t.2.1)) =
      List.insertionSort (fun a b => nameLe a.1 b.1 = true) (groupKeys (cartJoin db u)) := by
  unfold download_shopping_cart_rows
  rw [List.map_map]
  have h : ((fun t : String × String × Nat => (t.1, t.2.1)) ∘
      (fun k : String × String => (k.1, k.2, sumFor (cartJoin db u) k))) = id := by
    funext k; rfl
  rw [h, List.map_id]

theorem mem_rows_iff (db : DB) (u : Nat) (t : String × String × Nat) :
    t ∈ download_shopping_cart_rows db u ↔
      ∃ k ∈ groupKeys (cartJoin db u), t = (k.1, k.2, sumFor (cartJoin db u) k) := by
  unfold download_shopping_cart_rows
  rw [List.mem_map]
  constructor
  · rintro ⟨k, hk, rfl⟩
    exact ⟨k, (List.perm_insertionSort _ _).mem_iff.mp hk, rfl⟩
  · rintro ⟨k, hk, rfl⟩
    exact ⟨k, (List.perm_insertionSort _ _).mem_iff.mpr hk, rfl⟩

theorem foldl_lines (l : List (String × String × Nat)) (init : String) :
    l.foldl (fun acc t => acc ++ ingredientLine t) init = init ++ linesConcat l := by
  induction l generalizing init with
  | nil => simp [linesConcat]
  | cons h t ih =>
    rw [List.foldl_cons, ih]
    show init ++ ingredientLine h ++ linesConcat t =
      init ++ (ingredientLine h ++ linesConcat t)
    rw [String.append_assoc]

/-! ## Claims about the Aggregation Engine -/

/-- C1: for every user, the shopping-list aggregation produces exactly one
(ingredient name, measurement unit, total amount) triple per distinct
ingredient occurring in any recipe currently in that user's shopping cart,
the total being the sum of the per-recipe RecipeIngredient amounts across
all cart recipes, and the triples are ordered by ingredient name
ascending. -/
theorem C1_shopping_list_aggregation (db : DB) (u : Nat) (hwf : db.wf) :
    ((download_shopping_cart_rows db u).map (fun t => (t.1, t.2.1))).Nodup ∧
    (∀ i ∈ db.ingredients,
      ((i.name, i.measurement_unit, totalAmount db u i.id) ∈
          download_shopping_cart_rows db u ↔ ingredientInCart db u i.id)) ∧
    (∀ t ∈ download_shopping_cart_rows db u, ∃ i ∈ db.ingredients,
      ingredientInCart db u i.id ∧
        t = (i.name, i.measurement_unit, totalAmount db u i.id)) ∧
    (download_shopping_cart_rows db u).Pairwise (fun a b => a.1 ≤ b.1) := by
  obtain ⟨hids, hkeys, _h3, _h4, _h5, _h6, _h7, hFKri, _rest⟩ := hwf
  have hFKcart : ∀ ri ∈ cartItems db u, ri.ingredient ∈ db.ingredients.map (·.id) :=
    cartItems_FK db u hFKri
  have hsum : ∀ i ∈ db.ingredients,
      sumFor (cartJoin db u) (i.name, i.measurement_unit) = totalAmount db u i.id := by
    intro i hi
    exact sumFor_join db (cartItems db u) hids hkeys hFKcart i hi
  have hkeymem : ∀ k : String × String, (k ∈ groupKeys (cartJoin db u) ↔
      ∃ ri ∈ cartItems db u, ∃ j ∈ db.ingredients, j.id = ri.ingredient ∧
        k = (j.name, j.measurement_unit)) := by
    intro k
    unfold groupKeys
    rw [List.mem_dedup, List.mem_map]
    exact mem_join_keys db (cartItems db u) k
  have hinj : ∀ i ∈ db.ingredients, ∀ j ∈ db.ingredients,
      ((i.name, i.measurement_unit) : String × String) =
        (j.name, j.measurement_unit) → i = j :=
    fun i hi j hj he => List.inj_on_of_nodup_map hkeys hi hj he
  refine ⟨?_, ?_, ?_, ?_⟩
  · rw [rows_keys]
    exact ((List.perm_insertionSort _ _).nodup_iff).mpr (List.nodup_dedup _)
  · intro i hi
    rw [mem_rows_iff]
    constructor
    · rintro ⟨k, hk, heq⟩
      cases k with
      | mk k1 k2 =>
        simp only [Prod.mk.injEq] at heq
        obtain ⟨he1, he2, _⟩ := heq
        obtain ⟨ri, hricart, j, hj, hje, hkey⟩ := (hkeymem (k1, k2)).mp hk
        have hij : i = j := by
          apply hinj i hi j hj
          rw [← he1, ← he2] at hkey
          simpa using hkey
        rw [hij]
        exact (ingredientInCart_iff db u j.id).mpr ⟨ri, hricart, hje.symm⟩
    · intro hic
      obtain ⟨ri, hricart, hri_ing⟩ := (ingredientInCart_iff db u i.id).mp hic
      refine ⟨(i.name, i.measurement_unit),
        (hkeymem _).mpr ⟨ri, hricart, i, hi, hri_ing.symm, rfl⟩, ?_⟩
      rw [hsum i hi]
  · intro t ht
    rw [mem_rows_iff] at ht
    obtain ⟨k, hk, rfl⟩ := ht
    obtain ⟨ri, hricart, j, hj, hje, hkey⟩ := (hkeymem k).mp hk
    refine ⟨j, hj, (ingredientInCart_iff db u j.id).mpr ⟨ri, hricart, hje.symm⟩, ?_⟩
    subst hkey
    rw [hsum j hj]
  · haveI : IsTotal (String × String) (fun a b => nameLe a.1 b.1 = true) :=
      ⟨fun a b => charListLe_total a.1.data b.1.data⟩
    haveI : IsTrans (String × String) (fun a b => nameLe a.1 b.1 = true) :=
      ⟨fun _ _ _ h1 h2 => charListLe_trans _ _ _ h1 h2⟩
    have hs := List.sorted_insertionSort (fun a b : String × String => nameLe a.1 b.1 = true)
      (groupKeys (cartJoin db u))
    unfold download_shopping_cart_rows
    exact hs.map _ (fun a b h => (nameLe_iff_le a.1 b.1).mp h)

/-- Witness for C1 on the concrete sample store. -/
theorem C1_shopping_list_aggregation_witness :
    DB.wf dbSample ∧
    (((download_shopping_cart_rows dbSample 1).map (fun t => (t.1, t.2.1))).Nodup ∧
     (∀ i ∈ dbSample.ingredients,
       ((i.name, i.measurement_unit, totalAmount dbSample 1 i.id) ∈
           download_shopping_cart_rows dbSample 1 ↔ ingredientInCart dbSample 1 i.id)) ∧
     (∀ t ∈ download_shopping_cart_rows dbSample 1, ∃ i ∈ dbSample.ingredients,
       ingredientInCart dbSample 1 i.id ∧
         t = (i.name, i.measurement_unit, totalAmount dbSample 1 i.id)) ∧
     (download_shopping_cart_rows dbSample 1).Pairwise (fun a b => a.1 ≤ b.1)) :=
  ⟨by decide, C1_shopping_list_aggregation dbSample 1 (by decide)⟩

/-- C7: an empty shopping cart yields an empty aggregation and a report
consisting of the header line only. -/
theorem C7_empty_cart_report (db : DB) (u : Nat)
    (h : db.shopping_cart.filter (fun sc => sc.user == u) = []) :
    download_shopping_cart_rows db u = [] ∧
    download_shopping_cart_text db u = shoppingListHeader := by
  have hitems : cartItems db u = [] := by
    unfold cartItems
    rw [h]
    rfl
  have hrows : download_shopping_cart_rows db u = [] := by
    unfold download_shopping_cart_rows cartJoin groupKeys
    rw [hitems]
    rfl
  refine ⟨hrows, ?_⟩
  unfold download_shopping_cart_text
  rw [hrows]
  rfl

/-- Witness for C7: user 2's cart in the sample store is empty. -/
theorem C7_empty_cart_report_witness :
    dbSample.shopping_cart.filter (fun sc => sc.user == 2) = [] ∧
    (download_shopping_cart_rows dbSample 2 = [] ∧
     download_shopping_cart_text dbSample 2 = shoppingListHeader) :=
  ⟨by decide, C7_empty_cart_report dbSample 2 (by decide)⟩

/-- C8: the exported report is the literal header line followed by one line
of the exact form "name (unit) - total" per aggregated triple, in
aggregation (name-sorted) order; on the spec's concrete Flour/Sugar
scenario the result is the two expected lines. -/
theorem C8_report_lines :
    (∀ (db : DB) (u : Nat),
      download_shopping_cart_text db u =
        shoppingListHeader ++ linesConcat (download_shopping_cart_rows db u)) ∧
    shoppingListHeader = "Список покупок:\n" ∧
    (∀ t : String × String × Nat,
      ingredientLine t = t.1 ++ " (" ++ t.2.1 ++ ") - " ++ toString t.2.2 ++ "\n") ∧
    download_shopping_cart_rows dbSample 1 = [("Flour", "g", 300), ("Sugar", "g", 50)] ∧
    download_shopping_cart_text dbSample 1 =
      "Список покупок:\nFlour (g) - 300\nSugar (g) - 50\n" ∧
    (∀ (db : DB) (u : Nat),
      (download_shopping_cart_rows db u).Pairwise (fun a b => nameLe a.1 b.1 = true)) :=
  ⟨fun db u => foldl_lines (download_shopping_cart_rows db u) shoppingListHeader,
   rfl, fun t => rfl, by decide, by decide, fun db u => by
    haveI : IsTotal (String × String) (fun a b => nameLe a.1 b.1 = true) :=
      ⟨fun a b => charListLe_total a.1.data b.1.data⟩
    haveI : IsTrans (String × String) (fun a b => nameLe a.1 b.1 = true) :=
      ⟨fun _ _ _ h1 h2 => charListLe_trans _ _ _ h1 h2⟩
    have hs := List.sorted_insertionSort (fun a b : String × String => nameLe a.1 b.1 = true)
      (groupKeys (cartJoin db u))
    unfold download_shopping_cart_rows
    exact hs.map _ (fun a b h => h)⟩

/-! ## Claims about the Mutation Service -/

theorem create_error_of_validate {db : DB} {author : Nat} {inp : RecipeInput} {e : FieldError}
    (hfield : RecipeWriteSerializer.fieldValidate db inp = .ok ())
    (hv : RecipeWriteSerializer.validate inp = .error e) :
    RecipeWriteSerializer.create db author inp = .error e := by
  unfold RecipeWriteSerializer.create
  simp only [hfield, hv]

theorem createResultDB_of_error {db : DB} {author : Nat} {inp : RecipeInput} {e : FieldError}
    (h : RecipeWriteSerializer.create db author inp = .error e) :
    createResultDB db author inp = db := by
  unfold createResultDB
  rw [h]

theorem validate_ingredientsRequired {inp : RecipeInput} (h : inp.ingredients = []) :
    RecipeWriteSerializer.validate inp = .error .ingredientsRequired := by
  unfold RecipeWriteSerializer.validate
  rw [if_pos h]

theorem validate_ingredientsNotUnique {inp : RecipeInput} (h : inp.ingredients ≠ [])
    (hdup : ¬ (inp.ingredients.map (·.id)).Nodup) :
    RecipeWriteSerializer.validate inp = .error .ingredientsNotUnique := by
  unfold RecipeWriteSerializer.validate
  rw [if_neg h, if_pos]
  intro hlen
  exact hdup ((dedup_length_eq_iff _).mp (by rw [hlen, List.length_map]))

theorem dedup_map_length_eq {inp : RecipeInput}
    (hnodup : (inp.ingredients.map (·.id)).Nodup) :
    ¬ ((inp.ingredients.map (·.id)).dedup.length ≠ inp.ingredients.length) := by
  rw [not_not]
  rw [(dedup_length_eq_iff _).mpr hnodup, List.length_map]

theorem validate_tagsRequired {inp : RecipeInput} (h : inp.ingredients ≠ [])
    (hnodup : (inp.ingredients.map (·.id)).Nodup) (ht : inp.tags = []) :
    RecipeWriteSerializer.validate inp = .error .tagsRequired := by
  unfold RecipeWriteSerializer.validate
  rw [if_neg h, if_neg (dedup_map_length_eq hnodup), if_pos ht]

theorem validate_tagsNotUnique {inp : RecipeInput} (h : inp.ingredients ≠ [])
    (hnodup : (inp.ingredients.map (·.id)).Nodup) (ht : inp.tags ≠ [])
    (hdup : ¬ inp.tags.Nodup) :
    RecipeWriteSerializer.validate inp = .error .tagsNotUnique := by
  unfold RecipeWriteSerializer.validate
  rw [if_neg h, if_neg (dedup_map_length_eq hnodup), if_neg ht, if_pos]
  intro hlen
  exact hdup ((dedup_length_eq_iff _).mp hlen)

/-- C2: create rejects an empty tag list, an empty ingredient list, or a
duplicate inside either list, with four pairwise-distinct field-scoped
errors, and any such rejection leaves the store (in particular the recipe
count) unchanged. -/
theorem C2_create_validation (db : DB) (author : Nat) (inp : RecipeInput)
    (hfield : RecipeWriteSerializer.fieldValidate db inp = .ok ()) :
    (inp.ingredients = [] →
      RecipeWriteSerializer.create db author inp = .error .ingredientsRequired) ∧
    (inp.ingredients ≠ [] → ¬ (inp.ingredients.map (·.id)).Nodup →
      RecipeWriteSerializer.create db author inp = .error .ingredientsNotUnique) ∧
    (inp.ingredients ≠ [] → (inp.ingredients.map (·.id)).Nodup → inp.tags = [] →
      RecipeWriteSerializer.create db author inp = .error .tagsRequired) ∧
    (inp.ingredients ≠ [] → (inp.ingredients.map (·.id)).Nodup → inp.tags ≠ [] →
      ¬ inp.tags.Nodup →
      RecipeWriteSerializer.create db author inp = .error .tagsNotUnique) ∧
    ((inp.tags = [] ∨ inp.ingredients = [] ∨ ¬ inp.tags.Nodup ∨
        ¬ (inp.ingredients.map (·.id)).Nodup) →
      createResultDB db author inp = db ∧
      (createResultDB db author inp).recipes.length = db.recipes.length) ∧
    ([FieldError.ingredientsRequired, FieldError.ingredientsNotUnique,
        FieldError.tagsRequired, FieldError.tagsNotUnique].Nodup ∧
      FieldError.ingredientsRequired.field = "ingredients" ∧
      FieldError.ingredientsNotUnique.field = "ingredients" ∧
      FieldError.tagsRequired.field = "tags" ∧
      FieldError.tagsNotUnique.field = "tags") := by
  refine ⟨?_, ?_, ?_, ?_, ?_, by decide, rfl, rfl, rfl, rfl⟩
  · intro h
    exact create_error_of_validate hfield (validate_ingredientsRequired h)
  · intro h hdup
    exact create_error_of_validate hfield (validate_ingredientsNotUnique h hdup)
  · intro h hnodup ht
    exact create_error_of_validate hfield (validate_tagsRequired h hnodup ht)
  · intro h hnodup ht htdup
    exact create_error_of_validate hfield (validate_tagsNotUnique h hnodup ht htdup)
  · intro hcond
    have herr : ∃ e, RecipeWriteSerializer.create db author inp = .error e := by
      by_cases hie : inp.ingredients = []
      · exact ⟨_, create_error_of_validate hfield (validate_ingredientsRequired hie)⟩
      · by_cases hidup : (inp.ingredients.map (·.id)).Nodup
        · by_cases hte : inp.tags = []
          · exact ⟨_, create_error_of_validate hfield
              (validate_tagsRequired hie hidup hte)⟩
          · have htdup : ¬ inp.tags.Nodup := by
              rcases hcond with h | h | h | h
              · exact absurd h hte
              · exact absurd h hie
              · exact h
              · exact absurd hidup h
            exact ⟨_, create_error_of_validate hfield
              (validate_tagsNotUnique hie hidup hte htdup)⟩
        · exact ⟨_, create_error_of_validate hfield
            (validate_ingredientsNotUnique hie hidup)⟩
    obtain ⟨e, he⟩ := herr
    have hres := createResultDB_of_error he
    exact ⟨hres, by rw [hres]⟩

/-- Witness for C2: an empty ingredient list on the sample store is
rejected with the ingredients-required error and changes nothing. -/
theorem C2_create_validation_witness :
    RecipeWriteSerializer.create dbSample 1
      ⟨"N", "T", 5, some "img", [10], []⟩ = .error .ingredientsRequired ∧
    createResultDB dbSample 1 ⟨"N", "T", 5, some "img", [10], []⟩ = dbSample :=
  ⟨(C2_create_validation dbSample 1 ⟨"N", "T", 5, some "img", [10], []⟩ rfl).1 rfl,
   ((C2_create_validation dbSample 1 ⟨"N", "T", 5, some "img", [10], []⟩ rfl).2.2.2.2.1
      (Or.inr (Or.inl rfl))).1⟩

theorem freshRecipeId_not_recipe {db : DB} {r : Recipe} (hr : r ∈ db.recipes) :
    r.id ≠ RecipeWriteSerializer.freshRecipeId db := by
  have hle : r.id ≤ (db.recipes.map (·.id)).foldr max 0 :=
    mem_le_foldr_max _ _ (List.mem_map_of_mem _ hr)
  unfold RecipeWriteSerializer.freshRecipeId
  omega

/-- C3: within an otherwise valid create request, an ingredient id that
resolves to no Ingredient row fails the whole operation with an error
naming an offending id, and afterwards the store is unchanged: the new
recipe does not exist and has zero RecipeIngredient rows. -/
theorem C3_create_unresolved_ingredient (db : DB) (author : Nat) (inp : RecipeInput)
    (hwf : db.wf)
    (hfield : RecipeWriteSerializer.fieldValidate db inp = .ok ())
    (hval : RecipeWriteSerializer.validate inp = .ok ())
    (hbad : ∃ e ∈ inp.ingredients, e.id ∉ db.ingredients.map (·.id)) :
    ∃ bad, bad ∈ inp.ingredients.map (·.id) ∧ bad ∉ db.ingredients.map (·.id) ∧
      RecipeWriteSerializer.create db author inp = .error (.ingredientNotFound bad) ∧
      createResultDB db author inp = db ∧
      (createResultDB db author inp).recipes.filter
        (fun r => r.id == RecipeWriteSerializer.freshRecipeId db) = [] ∧
      (createResultDB db author inp).recipe_ingredients.filter
        (fun ri => ri.recipe == RecipeWriteSerializer.freshRecipeId db) = [] := by
  obtain ⟨_h1, _h2, _h3, _h4, _h5, _h6, _h7, _h8, hFKrec, _rest⟩ := hwf
  obtain ⟨bad, hmem, hnot, heq⟩ :=
    process_error_of_bad (RecipeWriteSerializer.freshRecipeId db) hbad
  have hcreate : RecipeWriteSerializer.create db author inp =
      .error (.ingredientNotFound bad) := by
    unfold RecipeWriteSerializer.create
    simp only [hfield, hval, heq]
  have hres : createResultDB db author inp = db := createResultDB_of_error hcreate
  refine ⟨bad, hmem, hnot, hcreate, hres, ?_, ?_⟩
  · rw [hres, List.filter_eq_nil_iff]
    intro r hr
    simp only [beq_iff_eq]
    exact freshRecipeId_not_recipe hr
  · rw [hres, List.filter_eq_nil_iff]
    intro ri hri
    simp only [beq_iff_eq]
    intro hride
    obtain ⟨r, hr, hre⟩ := List.mem_map.mp (hFKrec ri hri)
    exact freshRecipeId_not_recipe hr (by rw [hre, hride])

/-- Witness for C3: ingredient id 7 resolves to nothing in the sample
store, so the create fails naming it and writes nothing. -/
theorem C3_create_unresolved_ingredient_witness :
    DB.wf dbSample ∧
    RecipeWriteSerializer.fieldValidate dbSample
      ⟨"N", "T", 5, some "img", [10], [⟨7, 2⟩]⟩ = .ok () ∧
    RecipeWriteSerializer.validate ⟨"N", "T", 5, some "img", [10], [⟨7, 2⟩]⟩ = .ok () ∧
    (∃ bad, bad ∈ ([⟨7, 2⟩] : List IngredientEntry).map (·.id) ∧
      bad ∉ dbSample.ingredients.map (·.id) ∧
      RecipeWriteSerializer.create dbSample 1 ⟨"N", "T", 5, some "img", [10], [⟨7, 2⟩]⟩ =
        .error (.ingredientNotFound bad) ∧
      createResultDB dbSample 1 ⟨"N", "T", 5, some "img", [10], [⟨7, 2⟩]⟩ = dbSample ∧
      (createResultDB dbSample 1 ⟨"N", "T", 5, some "img", [10], [⟨7, 2⟩]⟩).recipes.filter
        (fun r => r.id == RecipeWriteSerializer.freshRecipeId dbSample) = [] ∧
      (createResultDB dbSample 1
          ⟨"N", "T", 5, some "img", [10], [⟨7, 2⟩]⟩).recipe_ingredients.filter
        (fun ri => ri.recipe == RecipeWriteSerializer.freshRecipeId dbSample) = []) :=
  ⟨by decide, rfl, rfl,
   C3_create_unresolved_ingredient dbSample 1 ⟨"N", "T", 5, some "img", [10], [⟨7, 2⟩]⟩
     (by decide) rfl rfl ⟨⟨7, 2⟩, List.mem_cons_self _ _, by decide⟩⟩

theorem filter_of_filter_not {α} (p : α → Bool) (l : List α) :
    (l.filter (fun x => !(p x))).filter p = [] := by
  rw [List.filter_eq_nil_iff]
  intro x hx
  have h := (List.mem_filter.mp hx).2
  simp only [Bool.not_eq_true'] at h
  simp [h]

theorem filter_not_idem {α} (p : α → Bool) (l : List α) :
    (l.filter (fun x => !(p x))).filter (fun x => !(p x)) =
      l.filter (fun x => !(p x)) :=
  List.filter_eq_self.mpr (fun _ ha => (List.mem_filter.mp ha).2)

/-- C4: a successful update replaces the recipe's whole RecipeIngredient
set with exactly the requested rows (rows of other recipes untouched),
replaces its tag set, and applies the scalar-field update in the same
operation; a failed update (e.g. an invalid ingredient id mid-batch)
leaves the store unchanged. -/
theorem C4_update_replaces_ingredients (db : DB) (rid : Nat) (inp : RecipeInput) :
    (∀ db', RecipeWriteSerializer.update db rid inp = .ok db' →
      db'.recipe_ingredients.filter (fun ri => ri.recipe == rid) =
        inp.ingredients.map (fun e => ⟨rid, e.id, e.amount⟩) ∧
      db'.recipe_ingredients.filter (fun ri => !(ri.recipe == rid)) =
        db.recipe_ingredients.filter (fun ri => !(ri.recipe == rid)) ∧
      db'.recipe_tags.filter (fun rt => rt.1 == rid) =
        inp.tags.map (fun t => (rid, t)) ∧
      db'.recipes = db.recipes.map (fun r =>
        if r.id = rid then
          { r with name := inp.name, text := inp.text,
                   cooking_time := inp.cooking_time, image := inp.image }
        else r)) ∧
    (∀ e, RecipeWriteSerializer.update db rid inp = .error e →
      updateResultDB db rid inp = db) := by
  constructor
  · intro db' hok
    have hshape := update_ok_shape hok
    subst hshape
    refine ⟨?_, ?_, ?_, rfl⟩
    · rw [List.filter_append, filter_of_filter_not, List.nil_append]
      apply List.filter_eq_self.mpr
      intro x hx
      obtain ⟨e, _, he⟩ := List.mem_map.mp hx
      rw [← he]
      exact beq_self_eq_true rid
    · rw [List.filter_append, filter_not_idem]
      have hnil : (inp.ingredients.map
          (fun e => (⟨rid, e.id, e.amount⟩ : RecipeIngredient))).filter
            (fun ri => !(ri.recipe == rid)) = [] := by
        rw [List.filter_eq_nil_iff]
        intro x hx
        obtain ⟨e, _, he⟩ := List.mem_map.mp hx
        rw [← he]
        simp
      rw [hnil, List.append_nil]
    · rw [List.filter_append, filter_of_filter_not, List.nil_append]
      apply List.filter_eq_self.mpr
      intro x hx
      obtain ⟨t, _, ht⟩ := List.mem_map.mp hx
      rw [← ht]
      exact beq_self_eq_true rid
  · intro e he
    unfold updateResultDB
    rw [he]

/-- Witness for C4: updating Recipe 1's ingredient list from Flour 200 to
Sugar 5 leaves exactly the one new row; rows of Recipe 2 are untouched. -/
theorem C4_update_replaces_ingredients_witness :
    (updateResultDB dbSample 1
        ⟨"Recipe1", "text1", 5, some "img1", [10], [⟨2, 5⟩]⟩).recipe_ingredients.filter
      (fun ri => ri.recipe == 1) = [⟨1, 2, 5⟩] ∧
    (updateResultDB dbSample 1
        ⟨"Recipe1", "text1", 5, some "img1", [10], [⟨2, 5⟩]⟩).recipe_ingredients.filter
      (fun ri => !(ri.recipe == 1)) = [⟨2, 1, 100⟩, ⟨2, 2, 50⟩] :=
  ⟨((C4_update_replaces_ingredients dbSample 1
      ⟨"Recipe1", "text1", 5, some "img1", [10], [⟨2, 5⟩]⟩).1
      (updateResultDB dbSample 1 ⟨"Recipe1", "text1", 5, some "img1", [10], [⟨2, 5⟩]⟩)
      rfl).1,
   by
    rw [((C4_update_replaces_ingredients dbSample 1
      ⟨"Recipe1", "text1", 5, some "img1", [10], [⟨2, 5⟩]⟩).1
      (updateResultDB dbSample 1 ⟨"Recipe1", "text1", 5, some "img1", [10], [⟨2, 5⟩]⟩)
      rfl).2.1]
    decide⟩

/-! ## Claims about the Relationship Guard -/

theorem recipes_find?_some {db : DB} {rid : Nat} (h : rid ∈ db.recipes.map (·.id)) :
    ∃ r, db.recipes.find? (fun r => r.id == rid) = some r ∧ r ∈ db.recipes ∧
      r.id = rid := by
  obtain ⟨r0, hr0, hre⟩ := List.mem_map.mp h
  obtain ⟨r, hf, hmem, hp⟩ := find?_eq_some_of_mem (fun r => r.id == rid) db.recipes
    ⟨r0, hr0, by simpa using hre⟩
  exact ⟨r, hf, hmem, by simpa using hp⟩

theorem recipes_find?_none {db : DB} {rid : Nat} (h : rid ∉ db.recipes.map (·.id)) :
    db.recipes.find? (fun r => r.id == rid) = none := by
  rw [List.find?_eq_none]
  intro r hr
  simp only [beq_iff_eq]
  intro he
  exact h (he ▸ List.mem_map_of_mem _ hr)

theorem fav_any_iff (db : DB) (u rid : Nat) :
    (db.favorites.any (fun f => f.user == u && f.recipe == rid) = true) ↔
      (⟨u, rid⟩ : FavoriteRow) ∈ db.favorites := by
  rw [List.any_eq_true]
  constructor
  · rintro ⟨f, hf, hp⟩
    simp only [Bool.and_eq_true, beq_iff_eq] at hp
    obtain ⟨h1, h2⟩ := hp
    have he : f = ⟨u, rid⟩ := by cases f; simp_all
    rwa [← he]
  · intro h
    exact ⟨⟨u, rid⟩, h, by simp⟩

theorem cart_any_iff (db : DB) (u rid : Nat) :
    (db.shopping_cart.any (fun sc => sc.user == u && sc.recipe == rid) = true) ↔
      (⟨u, rid⟩ : ShoppingCartRow) ∈ db.shopping_cart := by
  rw [List.any_eq_true]
  constructor
  · rintro ⟨f, hf, hp⟩
    simp only [Bool.and_eq_true, beq_iff_eq] at hp
    obtain ⟨h1, h2⟩ := hp
    have he : f = ⟨u, rid⟩ := by cases f; simp_all
    rwa [← he]
  · intro h
    exact ⟨⟨u, rid⟩, h, by simp⟩

theorem follow_any_iff (db : DB) (u aid : Nat) :
    (db.follows.any (fun f => f.user == u && f.author == aid) = true) ↔
      (⟨u, aid⟩ : FollowRow) ∈ db.follows := by
  rw [List.any_eq_true]
  constructor
  · rintro ⟨f, hf, hp⟩
    simp only [Bool.and_eq_true, beq_iff_eq] at hp
    obtain ⟨h1, h2⟩ := hp
    have he : f = ⟨u, aid⟩ := by cases f; simp_all
    rwa [← he]
  · intro h
    exact ⟨⟨u, aid⟩, h, by simp⟩

theorem fav_add_dup_iff (db : DB) (u rid : Nat)
    (hFK : ∀ f ∈ db.favorites, f.recipe ∈ db.recipes.map (·.id)) :
    favorite db u rid = .error (.validation "Рецепт уже добавлен в избранное!") ↔
      (⟨u, rid⟩ : FavoriteRow) ∈ db.favorites := by
  constructor
  · intro h
    unfold favorite at h
    cases hf : db.recipes.find? (fun r => r.id == rid) with
    | none =>
      simp only [hf] at h
      exact absurd (Except.error.inj h) (by decide)
    | some r =>
      simp only [hf] at h
      have hre : r.id = rid := by simpa using List.find?_some hf
      by_cases hany : db.favorites.any (fun f => f.user == u && f.recipe == r.id) = true
      · have hm := (fav_any_iff db u r.id).mp hany
        rwa [hre] at hm
      · rw [if_neg hany] at h
        exact Except.noConfusion h
  · intro hmem
    have hFKr : rid ∈ db.recipes.map (·.id) := hFK _ hmem
    obtain ⟨r, hf, hrmem, hre⟩ := recipes_find?_some hFKr
    unfold favorite
    simp only [hf]
    rw [if_pos ((fav_any_iff db u r.id).mpr (by rwa [hre]))]

theorem fav_add_ok (db : DB) (u rid : Nat) :
    ∀ db', favorite db u rid = .ok db' →
      db'.favorites = db.favorites ++ [⟨u, rid⟩] ∧
      (⟨u, rid⟩ : FavoriteRow) ∉ db.favorites := by
  intro db' h
  unfold favorite at h
  cases hf : db.recipes.find? (fun r => r.id == rid) with
  | none =>
    simp only [hf] at h
    exact Except.noConfusion h
  | some r =>
    simp only [hf] at h
    have hre : r.id = rid := by simpa using List.find?_some hf
    by_cases hany : db.favorites.any (fun f => f.user == u && f.recipe == r.id) = true
    · rw [if_pos hany] at h
      exact Except.noConfusion h
    · rw [if_neg hany] at h
      have hd := Except.ok.inj h
      subst hd
      constructor
      · show db.favorites ++ [⟨u, r.id⟩] = db.favorites ++ [⟨u, rid⟩]
        rw [hre]
      · intro hmem
        exact hany ((fav_any_iff db u r.id).mpr (by rwa [hre]))

theorem fav_del_fail_iff (db : DB) (u rid : Nat)
    (hFK : ∀ f ∈ db.favorites, f.recipe ∈ db.recipes.map (·.id)) :
    (delete_favorite db u rid = .error .notFound ∨
     delete_favorite db u rid = .error (.validation "Рецепта нет в избранном!")) ↔
      (⟨u, rid⟩ : FavoriteRow) ∉ db.favorites := by
  constructor
  · rintro (h | h) hmem
    all_goals
      have hFKr : rid ∈ db.recipes.map (·.id) := hFK _ hmem
      obtain ⟨r, hf, _, hre⟩ := recipes_find?_some hFKr
      have hany : db.favorites.any (fun f => f.user == u && f.recipe == r.id) = true :=
        (fav_any_iff db u r.id).mpr (by rwa [hre])
      unfold delete_favorite at h
      simp only [hf] at h
      rw [if_neg (by simp [hany])] at h
      exact Except.noConfusion h
  · intro hnot
    cases hf : db.recipes.find? (fun r => r.id == rid) with
    | none =>
      left
      unfold delete_favorite
      simp only [hf]
    | some r =>
      right
      have hre : r.id = rid := by simpa using List.find?_some hf
      have hfalse : db.favorites.any (fun f => f.user == u && f.recipe == r.id) = false := by
        rw [Bool.eq_false_iff]
        intro hany
        have hm := (fav_any_iff db u r.id).mp hany
        rw [hre] at hm
        exact hnot hm
      unfold delete_favorite
      simp only [hf]
      rw [if_pos (by simp [hfalse])]

theorem fav_del_ok (db : DB) (u rid : Nat)
    (hnodup : (db.favorites.map (fun f => (f.user, f.recipe))).Nodup) :
    ∀ db', delete_favorite db u rid = .ok db' →
      db'.favorites.length + 1 = db.favorites.length ∧
      (⟨u, rid⟩ : FavoriteRow) ∉ db'.favorites := by
  intro db' h
  unfold delete_favorite at h
  cases hf : db.recipes.find? (fun r => r.id == rid) with
  | none =>
    simp only [hf] at h
    exact Except.noConfusion h
  | some r =>
    simp only [hf] at h
    have hre : r.id = rid := by simpa using List.find?_some hf
    by_cases hany : db.favorites.any (fun f => f.user == u && f.recipe == r.id) = true
    · rw [if_neg (by simp [hany])] at h
      have hd := Except.ok.inj h
      subst hd
      have hmem : (⟨u, rid⟩ : FavoriteRow) ∈ db.favorites := by
        have hm := (fav_any_iff db u r.id).mp hany
        rwa [hre] at hm
      have hp : ∀ x : FavoriteRow, ((x.user == u && x.recipe == r.id) = true ↔
          (x.user, x.recipe) = (u, rid)) := by
        intro x
        rw [hre]
        simp [Prod.ext_iff]
      have hkey := eraseP_key (fun f => f.user == u && f.recipe == r.id)
        (fun f => (f.user, f.recipe)) (u, rid) db.favorites hnodup hp
        ⟨u, rid⟩ hmem rfl
      exact ⟨hkey.1, fun hx => hkey.2 _ hx rfl⟩
    · rw [if_pos (by simp [Bool.eq_false_iff.mpr hany])] at h
      exact Except.noConfusion h

theorem cart_add_dup_iff (db : DB) (u rid : Nat)
    (hFK : ∀ sc ∈ db.shopping_cart, sc.recipe ∈ db.recipes.map (·.id)) :
    shopping_cart db u rid = .error (.validation "Рецепт уже добавлен в списоке покупок!") ↔
      (⟨u, rid⟩ : ShoppingCartRow) ∈ db.shopping_cart := by
  constructor
  · intro h
    unfold shopping_cart at h
    cases hf : db.recipes.find? (fun r => r.id == rid) with
    | none =>
      simp only [hf] at h
      exact absurd (Except.error.inj h) (by decide)
    | some r =>
      simp only [hf] at h
      have hre : r.id = rid := by simpa using List.find?_some hf
      by_cases hany : db.shopping_cart.any (fun sc => sc.user == u && sc.recipe == r.id) = true
      · have hm := (cart_any_iff db u r.id).mp hany
        rwa [hre] at hm
      · rw [if_neg hany] at h
        exact Except.noConfusion h
  · intro hmem
    have hFKr : rid ∈ db.recipes.map (·.id) := hFK _ hmem
    obtain ⟨r, hf, hrmem, hre⟩ := recipes_find?_some hFKr
    unfold shopping_cart
    simp only [hf]
    rw [if_pos ((cart_any_iff db u r.id).mpr (by rwa [hre]))]

theorem cart_add_ok (db : DB) (u rid : Nat) :
    ∀ db', shopping_cart db u rid = .ok db' →
      db'.shopping_cart = db.shopping_cart ++ [⟨u, rid⟩] ∧
      (⟨u, rid⟩ : ShoppingCartRow) ∉ db.shopping_cart := by
  intro db' h
  unfold shopping_cart at h
  cases hf : db.recipes.find? (fun r => r.id == rid) with
  | none =>
    simp only [hf] at h
    exact Except.noConfusion h
  | some r =>
    simp only [hf] at h
    have hre : r.id = rid := by simpa using List.find?_some hf
    by_cases hany : db.shopping_cart.any (fun sc => sc.user == u && sc.recipe == r.id) = true
    · rw [if_pos hany] at h
      exact Except.noConfusion h
    · rw [if_neg hany] at h
      have hd := Except.ok.inj h
      subst hd
      constructor
      · show db.shopping_cart ++ [⟨u, r.id⟩] = db.shopping_cart ++ [⟨u, rid⟩]
        rw [hre]
      · intro hmem
        exact hany ((cart_any_iff db u r.id).mpr (by rwa [hre]))

theorem cart_del_fail_iff (db : DB) (u rid : Nat)
    (hFK : ∀ sc ∈ db.shopping_cart, sc.recipe ∈ db.recipes.map (·.id)) :
    (delete_shopping_cart db u rid = .error .notFound ∨
     delete_shopping_cart db u rid = .error (.validation "Рецепта нет в списке покупок!")) ↔
      (⟨u, rid⟩ : ShoppingCartRow) ∉ db.shopping_cart := by
  constructor
  · rintro (h | h) hmem
    all_goals
      have hFKr : rid ∈ db.recipes.map (·.id) := hFK _ hmem
      obtain ⟨r, hf, _, hre⟩ := recipes_find?_some hFKr
      have hany : db.shopping_cart.any (fun sc => sc.user == u && sc.recipe == r.id) = true :=
        (cart_any_iff db u r.id).mpr (by rwa [hre])
      unfold delete_shopping_cart at h
      simp only [hf] at h
      rw [if_neg (by simp [hany])] at h
      exact Except.noConfusion h
  · intro hnot
    cases hf : db.recipes.find? (fun r => r.id == rid) with
    | none =>
      left
      unfold delete_shopping_cart
      simp only [hf]
    | some r =>
      right
      have hre : r.id = rid := by simpa using List.find?_some hf
      have hfalse : db.shopping_cart.any (fun sc => sc.user == u && sc.recipe == r.id) = false := by
        rw [Bool.eq_false_iff]
        intro hany
        have hm := (cart_any_iff db u r.id).mp hany
        rw [hre] at hm
        exact hnot hm
      unfold delete_shopping_cart
      simp only [hf]
      rw [if_pos (by simp [hfalse])]

theorem cart_del_ok (db : DB) (u rid : Nat)
    (hnodup : (db.shopping_cart.map (fun sc => (sc.user, sc.recipe))).Nodup) :
    ∀ db', delete_shopping_cart db u rid = .ok db' →
      db'.shopping_cart.length + 1 = db.shopping_cart.length ∧
      (⟨u, rid⟩ : ShoppingCartRow) ∉ db'.shopping_cart := by
  intro db' h
  unfold delete_shopping_cart at h
  cases hf : db.recipes.find? (fun r => r.id == rid) with
  | none =>
    simp only [hf] at h
    exact Except.noConfusion h
  | some r =>
    simp only [hf] at h
    have hre : r.id = rid := by simpa using List.find?_some hf
    by_cases hany : db.shopping_cart.any (fun sc => sc.user == u && sc.recipe == r.id) = true
    · rw [if_neg (by simp [hany])] at h
      have hd := Except.ok.inj h
      subst hd
      have hmem : (⟨u, rid⟩ : ShoppingCartRow) ∈ db.shopping_cart := by
        have hm := (cart_any_iff db u r.id).mp hany
        rwa [hre] at hm
      have hp : ∀ x : ShoppingCartRow, ((x.user == u && x.recipe == r.id) = true ↔
          (x.user, x.recipe) = (u, rid)) := by
        intro x
        rw [hre]
        simp [Prod.ext_iff]
      have hkey := eraseP_key (fun sc => sc.user == u && sc.recipe == r.id)
        (fun sc => (sc.user, sc.recipe)) (u, rid) db.shopping_cart hnodup hp
        ⟨u, rid⟩ hmem rfl
      exact ⟨hkey.1, fun hx => hkey.2 _ hx rfl⟩
    · rw [if_pos (by simp [Bool.eq_false_iff.mpr hany])] at h
      exact Except.noConfusion h

theorem follow_add_dup_iff (db : DB) (u aid : Nat)
    (hFK : ∀ f ∈ db.follows, f.user ∈ db.users ∧ f.author ∈ db.users) :
    subscribe db u aid = .error (.validation "Вы уже подписаны на этого автора") ↔
      (⟨u, aid⟩ : FollowRow) ∈ db.follows := by
  constructor
  · intro h
    unfold subscribe at h
    by_cases hc : db.users.contains aid = true
    · rw [if_neg (by rw [hc]; decide)] at h
      by_cases hany : db.follows.any (fun f => f.user == u && f.author == aid) = true
      · exact (follow_any_iff db u aid).mp hany
      · rw [if_neg hany] at h
        by_cases he : aid = u
        · rw [if_pos he] at h
          exact absurd (Except.error.inj h) (by decide)
        · rw [if_neg he] at h
          exact Except.noConfusion h
    · rw [if_pos (by rw [Bool.eq_false_iff.mpr hc]; decide)] at h
      exact absurd (Except.error.inj h) (by decide)
  · intro hmem
    have hc : db.users.contains aid = true := List.elem_iff.mpr (hFK _ hmem).2
    unfold subscribe
    rw [if_neg (by rw [hc]; decide),
      if_pos ((follow_any_iff db u aid).mpr hmem)]

theorem follow_add_ok (db : DB) (u aid : Nat) :
    ∀ db', subscribe db u aid = .ok db' →
      db'.follows = db.follows ++ [⟨u, aid⟩] ∧
      (⟨u, aid⟩ : FollowRow) ∉ db.follows ∧ aid ≠ u := by
  intro db' h
  unfold subscribe at h
  by_cases hc : db.users.contains aid = true
  · rw [if_neg (by rw [hc]; decide)] at h
    by_cases hany : db.follows.any (fun f => f.user == u && f.author == aid) = true
    · rw [if_pos hany] at h
      exact Except.noConfusion h
    · rw [if_neg hany] at h
      by_cases he : aid = u
      · rw [if_pos he] at h
        exact Except.noConfusion h
      · rw [if_neg he] at h
        have hd := Except.ok.inj h
        subst hd
        exact ⟨rfl, fun hmem => hany ((follow_any_iff db u aid).mpr hmem), he⟩
  · rw [if_pos (by rw [Bool.eq_false_iff.mpr hc]; decide)] at h
    exact Except.noConfusion h

theorem follow_del_fail_iff (db : DB) (u aid : Nat)
    (hFK : ∀ f ∈ db.follows, f.user ∈ db.users ∧ f.author ∈ db.users) :
    (delete_subscribe db u aid = .error .notFound ∨
     delete_subscribe db u aid = .error (.validation "Подписка не найдена")) ↔
      (⟨u, aid⟩ : FollowRow) ∉ db.follows := by
  constructor
  · rintro (h | h) hmem
    all_goals
      have hc : db.users.contains aid = true := List.elem_iff.mpr (hFK _ hmem).2
      have hany : db.follows.any (fun f => f.user == u && f.author == aid) = true :=
        (follow_any_iff db u aid).mpr hmem
      unfold delete_subscribe at h
      rw [if_neg (by rw [hc]; decide), if_neg (by rw [hany]; decide)] at h
      exact Except.noConfusion h
  · intro hnot
    by_cases hc : db.users.contains aid = true
    · right
      have hfalse : db.follows.any (fun f => f.user == u && f.author == aid) = false := by
        rw [Bool.eq_false_iff]
        intro hany
        exact hnot ((follow_any_iff db u aid).mp hany)
      unfold delete_subscribe
      rw [if_neg (by rw [hc]; decide), if_pos (by simp [hfalse])]
    · left
      unfold delete_subscribe
      rw [if_pos (by rw [Bool.eq_false_iff.mpr hc]; decide)]

theorem follow_del_ok (db : DB) (u aid : Nat)
    (hnodup : (db.follows.map (fun f => (f.author, f.user))).Nodup) :
    ∀ db', delete_subscribe db u aid = .ok db' →
      db'.follows.length + 1 = db.follows.length ∧
      (⟨u, aid⟩ : FollowRow) ∉ db'.follows := by
  intro db' h
  unfold delete_subscribe at h
  by_cases hc : db.users.contains aid = true
  · rw [if_neg (by rw [hc]; decide)] at h
    by_cases hany : db.follows.any (fun f => f.user == u && f.author == aid) = true
    · rw [if_neg (by simp [hany])] at h
      have hd := Except.ok.inj h
      subst hd
      have hmem : (⟨u, aid⟩ : FollowRow) ∈ db.follows :=
        (follow_any_iff db u aid).mp hany
      have hp : ∀ x : FollowRow, ((x.user == u && x.author == aid) = true ↔
          (x.author, x.user) = (aid, u)) := by
        intro x
        simp [Prod.ext_iff, and_comm]
      have hkey := eraseP_key (fun f => f.user == u && f.author == aid)
        (fun f => (f.author, f.user)) (aid, u) db.follows hnodup hp
        ⟨u, aid⟩ hmem rfl
      exact ⟨hkey.1, fun hx => hkey.2 _ hx rfl⟩
    · rw [if_pos (by simp [Bool.eq_false_iff.mpr hany])] at h
      exact Except.noConfusion h
  · rw [if_pos (by rw [Bool.eq_false_iff.mpr hc]; decide)] at h
    exact Except.noConfusion h

/-- C5: for favorite, shopping-cart and follow relationships, add fails
with the duplicate condition exactly when the join row already exists and
otherwise appends exactly that row; remove fails with a not-found
condition (Http404 or the "not there" ValidationError) exactly when the
row is absent, and on success deletes exactly one row, after which the
row is gone. -/
theorem C5_relationship_add_remove (db : DB) (u rid aid : Nat) (hwf : db.wf) :
    (favorite db u rid = .error (.validation "Рецепт уже добавлен в избранное!") ↔
      (⟨u, rid⟩ : FavoriteRow) ∈ db.favorites) ∧
    (∀ db', favorite db u rid = .ok db' →
      db'.favorites = db.favorites ++ [⟨u, rid⟩] ∧
      (⟨u, rid⟩ : FavoriteRow) ∉ db.favorites) ∧
    ((delete_favorite db u rid = .error .notFound ∨
      delete_favorite db u rid = .error (.validation "Рецепта нет в избранном!")) ↔
      (⟨u, rid⟩ : FavoriteRow) ∉ db.favorites) ∧
    (∀ db', delete_favorite db u rid = .ok db' →
      db'.favorites.length + 1 = db.favorites.length ∧
      (⟨u, rid⟩ : FavoriteRow) ∉ db'.favorites) ∧
    (shopping_cart db u rid = .error (.validation "Рецепт уже добавлен в списоке покупок!") ↔
      (⟨u, rid⟩ : ShoppingCartRow) ∈ db.shopping_cart) ∧
    (∀ db', shopping_cart db u rid = .ok db' →
      db'.shopping_cart = db.shopping_cart ++ [⟨u, rid⟩] ∧
      (⟨u, rid⟩ : ShoppingCartRow) ∉ db.shopping_cart) ∧
    ((delete_shopping_cart db u rid = .error .notFound ∨
      delete_shopping_cart db u rid = .error (.validation "Рецепта нет в списке покупок!")) ↔
      (⟨u, rid⟩ : ShoppingCartRow) ∉ db.shopping_cart) ∧
    (∀ db', delete_shopping_cart db u rid = .ok db' →
      db'.shopping_cart.length + 1 = db.shopping_cart.length ∧
      (⟨u, rid⟩ : ShoppingCartRow) ∉ db'.shopping_cart) ∧
    (subscribe db u aid = .error (.validation "Вы уже подписаны на этого автора") ↔
      (⟨u, aid⟩ : FollowRow) ∈ db.follows) ∧
    (∀ db', subscribe db u aid = .ok db' →
      db'.follows = db.follows ++ [⟨u, aid⟩] ∧
      (⟨u, aid⟩ : FollowRow) ∉ db.follows ∧ aid ≠ u) ∧
    ((delete_subscribe db u aid = .error .notFound ∨
      delete_subscribe db u aid = .error (.validation "Подписка не найдена")) ↔
      (⟨u, aid⟩ : FollowRow) ∉ db.follows) ∧
    (∀ db', delete_subscribe db u aid = .ok db' →
      db'.follows.length + 1 = db.follows.length ∧
      (⟨u, aid⟩ : FollowRow) ∉ db'.follows) := by
  obtain ⟨_, _, _, _, hcartN, hfavN, hfolN, _, _, hcartFK, hfavFK, hfolFK, _⟩ := hwf
  exact ⟨fav_add_dup_iff db u rid hfavFK, fav_add_ok db u rid,
         fav_del_fail_iff db u rid hfavFK, fav_del_ok db u rid hfavN,
         cart_add_dup_iff db u rid hcartFK, cart_add_ok db u rid,
         cart_del_fail_iff db u rid hcartFK, cart_del_ok db u rid hcartN,
         follow_add_dup_iff db u aid hfolFK, follow_add_ok db u aid,
         follow_del_fail_iff db u aid hfolFK, follow_del_ok db u aid hfolN⟩

/-- Witness for C5 on the sample store: re-adding the existing favorite
fails as a duplicate, deleting it removes exactly one row, and
re-subscribing to the already-followed author fails as a duplicate. -/
theorem C5_relationship_add_remove_witness :
    favorite dbSample 1 1 = .error (.validation "Рецепт уже добавлен в избранное!") ∧
    ((apiResultDB dbSample (delete_favorite dbSample 1 1)).favorites.length + 1 =
      dbSample.favorites.length) ∧
    subscribe dbSample 1 2 = .error (.validation "Вы уже подписаны на этого автора") :=
  ⟨(C5_relationship_add_remove dbSample 1 1 2 (by decide)).1.mpr (by decide),
   ((C5_relationship_add_remove dbSample 1 1 2 (by decide)).2.2.2.1
      (apiResultDB dbSample (delete_favorite dbSample 1 1)) rfl).1,
   (C5_relationship_add_remove dbSample 1 1 2
      (by decide)).2.2.2.2.2.2.2.2.1.mpr (by decide)⟩

theorem favorite_ok_follows {db db' : DB} {u rid : Nat}
    (h : favorite db u rid = .ok db') : db'.follows = db.follows := by
  unfold favorite at h
  cases hf : db.recipes.find? (fun r => r.id == rid) with
  | none => simp only [hf] at h; exact Except.noConfusion h
  | some r =>
    simp only [hf] at h
    by_cases hany : db.favorites.any (fun f => f.user == u && f.recipe == r.id) = true
    · rw [if_pos hany] at h; exact Except.noConfusion h
    · rw [if_neg hany] at h
      rw [← Except.ok.inj h]

theorem delete_favorite_ok_follows {db db' : DB} {u rid : Nat}
    (h : delete_favorite db u rid = .ok db') : db'.follows = db.follows := by
  unfold delete_favorite at h
  cases hf : db.recipes.find? (fun r => r.id == rid) with
  | none => simp only [hf] at h; exact Except.noConfusion h
  | some r =>
    simp only [hf] at h
    by_cases hany : db.favorites.any (fun f => f.user == u && f.recipe == r.id) = true
    · rw [if_neg (by simp [hany])] at h
      rw [← Except.ok.inj h]
    · rw [if_pos (by simp [Bool.eq_false_iff.mpr hany])] at h
      exact Except.noConfusion h

theorem shopping_cart_ok_follows {db db' : DB} {u rid : Nat}
    (h : shopping_cart db u rid = .ok db') : db'.follows = db.follows := by
  unfold shopping_cart at h
  cases hf : db.recipes.find? (fun r => r.id == rid) with
  | none => simp only [hf] at h; exact Except.noConfusion h
  | some r =>
    simp only [hf] at h
    by_cases hany : db.shopping_cart.any (fun sc => sc.user == u && sc.recipe == r.id) = true
    · rw [if_pos hany] at h; exact Except.noConfusion h
    · rw [if_neg hany] at h
      rw [← Except.ok.inj h]

theorem delete_shopping_cart_ok_follows {db db' : DB} {u rid : Nat}
    (h : delete_shopping_cart db u rid = .ok db') : db'.follows = db.follows := by
  unfold delete_shopping_cart at h
  cases hf : db.recipes.find? (fun r => r.id == rid) with
  | none => simp only [hf] at h; exact Except.noConfusion h
  | some r =>
    simp only [hf] at h
    by_cases hany : db.shopping_cart.any (fun sc => sc.user == u && sc.recipe == r.id) = true
    · rw [if_neg (by simp [hany])] at h
      rw [← Except.ok.inj h]
    · rw [if_pos (by simp [Bool.eq_false_iff.mpr hany])] at h
      exact Except.noConfusion h

theorem delete_subscribe_ok_follows {db db' : DB} {u aid : Nat}
    (h : delete_subscribe db u aid = .ok db') :
    db'.follows = db.follows.eraseP (fun f => f.user == u && f.author == aid) := by
  unfold delete_subscribe at h
  by_cases hc : db.users.contains aid = true
  · rw [if_neg (by rw [hc]; decide)] at h
    by_cases hany : db.follows.any (fun f => f.user == u && f.author == aid) = true
    · rw [if_neg (by rw [hany]; decide)] at h
      rw [← Except.ok.inj h]
    · rw [if_pos (by rw [Bool.eq_false_iff.mpr hany]; decide)] at h
      exact Except.noConfusion h
  · rw [if_pos (by rw [Bool.eq_false_iff.mpr hc]; decide)] at h
    exact Except.noConfusion h

theorem step_preserves_noSelfFollow {db db' : DB} (hstep : Step db db')
    (hns : NoSelfFollow db) : NoSelfFollow db' := by
  cases hstep with
  | createRecipe h =>
    obtain ⟨_, h2⟩ := create_ok_shape h
    subst h2
    exact hns
  | updateRecipe h =>
    have h2 := update_ok_shape h
    subst h2
    exact hns
  | favoriteAdd h =>
    intro f hf
    rw [favorite_ok_follows h] at hf
    exact hns f hf
  | favoriteDel h =>
    intro f hf
    rw [delete_favorite_ok_follows h] at hf
    exact hns f hf
  | cartAdd h =>
    intro f hf
    rw [shopping_cart_ok_follows h] at hf
    exact hns f hf
  | cartDel h =>
    intro f hf
    rw [delete_shopping_cart_ok_follows h] at hf
    exact hns f hf
  | followAdd h =>
    obtain ⟨heq, _, hne⟩ := follow_add_ok _ _ _ _ h
    intro f hf
    rw [heq] at hf
    rcases List.mem_append.mp hf with hf1 | hf2
    · exact hns f hf1
    · have : f = ⟨_, _⟩ := List.mem_singleton.mp hf2
      subst this
      exact fun he => hne he.symm
  | followDel h =>
    intro f hf
    rw [delete_subscribe_ok_follows h] at hf
    exact hns f ((List.eraseP_sublist _).mem hf)

/-- C6: subscribing to oneself always fails with the self-follow
condition; the storage layer itself refuses a self-follow row; and no
self-follow row appears in any state reachable by API steps from a state
without one. -/
theorem C6_no_self_follow :
    (∀ (db : DB) (u : Nat), u ∈ db.users → NoSelfFollow db →
      subscribe db u u = .error (.validation "Вы не можете подписаться на самого себя!")) ∧
    (∀ (db : DB) (u : Nat), followStorageInsert db u u = none) ∧
    (∀ db db' : DB, Relation.ReflTransGen Step db db' →
      NoSelfFollow db → NoSelfFollow db') := by
  refine ⟨?_, ?_, ?_⟩
  · intro db u hu hns
    have hc : db.users.contains u = true := List.elem_iff.mpr hu
    have hfalse : db.follows.any (fun f => f.user == u && f.author == u) = false := by
      rw [Bool.eq_false_iff]
      intro hany
      obtain ⟨f, hf, hp⟩ := List.any_eq_true.mp hany
      simp only [Bool.and_eq_true, beq_iff_eq] at hp
      exact hns f hf (hp.1.trans hp.2.symm)
    unfold subscribe
    rw [if_neg (by rw [hc]; decide), if_neg (by rw [hfalse]; decide), if_pos rfl]
  · intro db u
    unfold followStorageInsert
    rw [if_pos rfl]
  · intro db db' hr
    induction hr with
    | refl => exact id
    | tail _ hstep ih => exact fun hns => step_preserves_noSelfFollow hstep (ih hns)

/-- Witness for C6: user 1 cannot follow themself in the sample store, and
the storage layer refuses the self-row outright. -/
theorem C6_no_self_follow_witness :
    subscribe dbSample 1 1 =
      .error (.validation "Вы не можете подписаться на самого себя!") ∧
    followStorageInsert dbSample 2 2 = none ∧
    NoSelfFollow dbSample :=
  ⟨C6_no_self_follow.1 dbSample 1 (by decide) (by decide),
   C6_no_self_follow.2.1 dbSample 2,
   C6_no_self_follow.2.2 dbSample dbSample Relation.ReflTransGen.refl (by decide)⟩

/-! ## Follow-listing limit (C9) and missing-recipe asymmetry (C10) -/

/-- Counterexample to C9 as stated: with `recipes_limit=0` (a truthy
string in Python) the listing returns zero recipes, not all of the
author's recipes. -/
theorem C9_recipes_limit_counterexample :
    get_recipes dbSample 1 (some "0") = .ok [] ∧
    get_recipes dbSample 1 none =
      .ok [⟨1, 1, "Recipe1", "text1", 5, some "img1"⟩,
           ⟨2, 1, "Recipe2", "text2", 7, some "img2"⟩] :=
  ⟨by decide, by decide⟩

/-- C9 as amended: an absent limit or an empty string means unbounded; a
limit parsing to a non-negative integer n truncates to the first n
recipes (so 0 yields zero recipes); a negative limit is an error, never
an unbounded listing. -/
theorem C9_recipes_limit_amended (db : DB) (aid : Nat) :
    get_recipes db aid none = .ok (db.recipes.filter (fun r => r.author == aid)) ∧
    get_recipes db aid (some "") = .ok (db.recipes.filter (fun r => r.author == aid)) ∧
    (∀ s n, s ≠ "" → pyInt s = some n → 0 ≤ n →
      get_recipes db aid (some s) =
        .ok ((db.recipes.filter (fun r => r.author == aid)).take n.toNat)) ∧
    (∀ s n, s ≠ "" → pyInt s = some n → n < 0 →
      get_recipes db aid (some s) = .error "Negative indexing is not supported.") := by
  refine ⟨rfl, ?_, ?_, ?_⟩
  · simp [get_recipes]
  · intro s n hs hp h0
    simp only [get_recipes]
    rw [if_neg hs]
    simp only [hp]
    rw [if_neg (not_lt.mpr h0)]
  · intro s n hs hp hneg
    simp only [get_recipes]
    rw [if_neg hs]
    simp only [hp]
    rw [if_pos hneg]

/-- Witness for the amended C9: limit "1" truncates to the first recipe
and limit "-1" is an error on the sample store. -/
theorem C9_recipes_limit_amended_witness :
    get_recipes dbSample 1 (some "1") =
      .ok [⟨1, 1, "Recipe1", "text1", 5, some "img1"⟩] ∧
    get_recipes dbSample 1 (some "-1") =
      .error "Negative indexing is not supported." := by
  constructor
  · rw [(C9_recipes_limit_amended dbSample 1).2.2.1 "1" 1 (by decide) (by decide)
      (by decide)]
    decide
  · exact (C9_recipes_limit_amended dbSample 1).2.2.2 "-1" (-1) (by decide) (by decide)
      (by decide)

/-- C10: adding a nonexistent recipe to favorites or to the cart fails
with a (bad-request) ValidationError, removing it fails with Http404, and
in every case the store is unchanged. -/
theorem C10_missing_recipe_asymmetry (db : DB) (u rid : Nat)
    (h : rid ∉ db.recipes.map (·.id)) :
    favorite db u rid = .error (.validation "Рецепт не найден в избранном!") ∧
    shopping_cart db u rid = .error (.validation "Рецепт не найден в списоке покупок!") ∧
    delete_favorite db u rid = .error .notFound ∧
    delete_shopping_cart db u rid = .error .notFound ∧
    apiResultDB db (favorite db u rid) = db ∧
    apiResultDB db (shopping_cart db u rid) = db ∧
    apiResultDB db (delete_favorite db u rid) = db ∧
    apiResultDB db (delete_shopping_cart db u rid) = db := by
  have hf := recipes_find?_none h
  have h1 : favorite db u rid = .error (.validation "Рецепт не найден в избранном!") := by
    unfold favorite
    simp only [hf]
  have h2 : shopping_cart db u rid =
      .error (.validation "Рецепт не найден в списоке покупок!") := by
    unfold shopping_cart
    simp only [hf]
  have h3 : delete_favorite db u rid = .error .notFound := by
    unfold delete_favorite
    simp only [hf]
  have h4 : delete_shopping_cart db u rid = .error .notFound := by
    unfold delete_shopping_cart
    simp only [hf]
  refine ⟨h1, h2, h3, h4, ?_, ?_, ?_, ?_⟩
  · unfold apiResultDB; rw [h1]
  · unfold apiResultDB; rw [h2]
  · unfold apiResultDB; rw [h3]
  · unfold apiResultDB; rw [h4]

/-- Witness for C10: recipe 99 does not exist in the sample store. -/
theorem C10_missing_recipe_asymmetry_witness :
    favorite dbSample 1 99 = .error (.validation "Рецепт не найден в избранном!") ∧
    delete_favorite dbSample 1 99 = .error .notFound :=
  ⟨(C10_missing_recipe_asymmetry dbSample 1 99 (by decide)).1,
   (C10_missing_recipe_asymmetry dbSample 1 99 (by decide)).2.2.1⟩
